import Mathlib

/-!
Verification of the zauthSDK core against its specification.

This file gives a shallow embedding, in Lean 4, of the parts of the
zauthSDK TypeScript code base that the frozen claims are about:

* the base58 encoder and the Solana transaction wire walker of
  `src/utils.ts` / the unnamed utils module (`decodePaymentHeader`,
  `extractSolanaFeePayer`, `base58Encode`);
* the response validator (`validateResponse`, `isEmptyResponse`,
  `hasErrorIndicators`, `checkEmptyCollections`);
* the `RefundExecutor` state machine (`processSingleRefund`,
  `scheduleReconnect`) with its spend caps and session idempotency set.

JavaScript numbers are modelled as `ℚ` (exact arithmetic) where amounts
and scores are concerned, and as `Nat` for byte values and offsets.
Out-of-range indexing in JavaScript yields `undefined` rather than
throwing; this is modelled with `Option`: a read that would be
`undefined` is `none`, and operations that would throw a `TypeError`
on `undefined` are modelled in an `Except Unit` monad whose error is
caught exactly where the source has a `try`/`catch`.
-/

namespace ZauthSDK

/-! ### Base58 encoding (`base58Encode` in utils) -/

/-- The standard Bitcoin/Solana base58 alphabet, exactly the `ALPHABET`
string of `base58Encode`. -/
def b58Alphabet : List Char :=
  "123456789ABCDEFGHJKLMNPQRSTUVWXYZabcdefghijkmnopqrstuvwxyz".toList

/-- Interpret a byte string as a big-endian natural number
(the `num = num * 256 + byte` loop of `base58Encode`). -/
def bytesToNat (bytes : List Nat) : Nat :=
  bytes.foldl (fun acc b => acc * 256 + b) 0

/-- Base-58 digits of `n`, least significant first, mirroring the
`while (num > 0)` loop of `base58Encode`.  The loop is bounded by a fuel
argument; `base58Encode` supplies `2 * bytes.length + 1` fuel, which is
always sufficient because `58^2 = 3364 > 256`, so a byte string of
length `L` (a number below `256^L`) has at most `2·L` base-58 digits. -/
def b58Digits : Nat → Nat → List Nat
  | 0, _ => []
  | fuel + 1, n => if n = 0 then [] else n % 58 :: b58Digits fuel (n / 58)

/-- The `base58Encode` function of the utils module: big-endian base-58
digits, one leading `'1'` per leading zero byte, and the string `"1"`
when the result would otherwise be empty (the `result || '1'` fallback,
which fires only for the empty byte string). -/
def base58Encode (bytes : List Nat) : String :=
  let num := bytesToNat bytes
  let digits := b58Digits (2 * bytes.length + 1) num
  let core := String.mk ((digits.reverse).map (fun d => b58Alphabet.getD d ' '))
  let res := String.mk (List.replicate (bytes.takeWhile (· = 0)).length '1') ++ core
  if res = "" then "1" else res

/-! ### Solana transaction wire walk

The walkers read bytes of the transaction at an absolute, increasing
offset.  A JavaScript read `txBytes[i]` past the end of the buffer
yields `undefined` (modelled `none`); arithmetic on `undefined`
produces `NaN`, so an offset is itself an `Option Nat` (`none` = NaN),
and `txBytes[NaN]` is again `undefined`.  `undefined & 0x80` evaluates
to `0`, and a `for` bound of `undefined`/NaN runs zero iterations.
Iterating `undefined` (as `base58Encode(accountKeys[badIndex])` would)
throws a `TypeError`, modelled as `Except.error ()` and caught by the
`try`/`catch` wrapping each walker. -/

/-- Read `bs[i]` with JavaScript semantics: out of range (or a NaN
index) is `undefined`. -/
def jsByte (bs : List Nat) : Option Nat → Option Nat
  | some i => bs.get? i
  | none => none

/-- Advance an offset; NaN is absorbing. -/
def jsAdd (off : Option Nat) (n : Nat) : Option Nat :=
  off.map (· + n)

/-- The account-table loop of `extractSolanaFeePayer`:
`accountKeys.push(txBytes.slice(offset, offset + 32)); offset += 32`
repeated `n` times.  `slice` clamps, so a short read yields a short
(possibly empty) key. -/
def readKeys (bs : List Nat) (off : Nat) : Nat → List (List Nat)
  | 0 => []
  | n + 1 => (bs.drop off).take 32 :: readKeys bs (off + 32) n

/-- The per-instruction account-index loop:
`ixAccountIndices.push(txBytes[offset]); offset += 1` repeated `n`
times.  An out-of-range read pushes `undefined` (`none`), which still
counts towards `ixAccountIndices.length`. -/
def readIxIndices (bs : List Nat) (off : Nat) : Nat → List (Option Nat)
  | 0 => []
  | n + 1 => bs.get? off :: readIxIndices bs (off + 1) n

/-- `SPL_TOKEN_PROGRAM` constant of the utils module. -/
def SPL_TOKEN_PROGRAM : String := "TokenkegQfeZyiNwAJbNbGKPFXCWuBvf9Ss623VQ5DA"

/-- `SPL_TOKEN_2022_PROGRAM` constant of the utils module. -/
def SPL_TOKEN_2022_PROGRAM : String := "TokenzQdBNbLqP5VEhdkAS6EPFLC1PHnBqCXEpPxuEb"

/-- Resolve `accountKeys[idx]` where `idx` may itself be `undefined`;
feeding the result to `base58Encode` throws when it is `undefined`. -/
def resolveKey (accountKeys : List (List Nat)) : Option Nat → Except Unit (List Nat)
  | none => .error ()
  | some i =>
    match accountKeys.get? i with
    | none => .error ()
    | some k => .ok k

/-- The instruction loop of the unnamed-module `extractSolanaFeePayer`
(part_002 lines 446-480): for each instruction read the program-id
index, the account-index list and the data, and if the program id
resolves to one of the two SPL Token programs return the account at
instruction index 3 (when it lists at least 4 accounts) or 2 (when at
least 3); otherwise continue.  After the loop, fall back to the first
account-table entry. -/
def instrLoop (bs : List Nat) (accountKeys : List (List Nat)) :
    Nat → Option Nat → Except Unit (Option String)
  | 0, _ => .ok (some (base58Encode (accountKeys.headD [])))
  | k + 1, off =>
    let pid := jsByte bs off
    let off := jsAdd off 1
    let nIxO := jsByte bs off
    let off := jsAdd off 1
    let nIx := nIxO.getD 0
    let idxs : List (Option Nat) :=
      match off with
      | some o => readIxIndices bs o nIx
      | none => List.replicate nIx none
    let off := jsAdd off nIx
    let dataLenO := jsByte bs off
    let off :=
      match dataLenO with
      | some d => jsAdd off (1 + d)
      | none => none
    match resolveKey accountKeys pid with
    | .error _ => .error ()
    | .ok programKey =>
      let programAddr := base58Encode programKey
      if programAddr = SPL_TOKEN_PROGRAM ∨ programAddr = SPL_TOKEN_2022_PROGRAM then
        if 4 ≤ idxs.length then
          match resolveKey accountKeys (idxs.getD 3 none) with
          | .error _ => .error ()
          | .ok k => .ok (some (base58Encode k))
        else if 3 ≤ idxs.length then
          match resolveKey accountKeys (idxs.getD 2 none) with
          | .error _ => .error ()
          | .ok k => .ok (some (base58Encode k))
        else instrLoop bs accountKeys k off
      else instrLoop bs accountKeys k off

/-- Body of the unnamed-module `extractSolanaFeePayer` (part_002 lines
407-484), before its `try`/`catch`: skip the signatures, the optional
version byte and the 3-byte message header, read the account table,
skip the blockhash and walk the instructions. -/
def solanaWalk (bs : List Nat) : Except Unit (Option String) :=
  let numSig := bs.get? 0
  let off : Option Nat := numSig.map (fun n => 1 + n * 64)
  let vb := (jsByte bs off).getD 0
  let off := if vb &&& 0x80 ≠ 0 then jsAdd off 1 else off
  let off := jsAdd off 3
  let nAccO := jsByte bs off
  let off := jsAdd off 1
  let nAcc := nAccO.getD 0
  let accountKeys : List (List Nat) :=
    match off with
    | some o => readKeys bs o nAcc
    | none => []
  let off := jsAdd off (32 * nAcc)
  if accountKeys.length = 0 then .ok none
  else
    let off := jsAdd off 32
    let nInstrO := jsByte bs off
    let off := jsAdd off 1
    let nInstr := nInstrO.getD 0
    instrLoop bs accountKeys nInstr off

/-- The unnamed-module `extractSolanaFeePayer` applied to the decoded
transaction bytes: the walk with its surrounding `try`/`catch`, which
turns any internal throw into `null`. -/
def extractSolanaFeePayer (bs : List Nat) : Option String :=
  match solanaWalk bs with
  | .error _ => none
  | .ok r => r

/-- The `src/src/utils.ts` variant of `extractSolanaFeePayer` (lines
395-448): after the same prefix walk it returns the base58 encoding of
the first account-table entry, provided the account count is positive
and the 32 bytes are in range, and `null` otherwise.  It parses no
instructions. -/
def extractSolanaFeePayerUtils (bs : List Nat) : Option String :=
  let numSig := bs.get? 0
  let off : Option Nat := numSig.map (fun n => 1 + n * 64)
  let vb := (jsByte bs off).getD 0
  let off := if vb &&& 0x80 ≠ 0 then jsAdd off 1 else off
  let off := jsAdd off 3
  let nAccO := jsByte bs off
  let off := jsAdd off 1
  match nAccO, off with
  | some nAcc, some o =>
    if 0 < nAcc ∧ o + 32 ≤ bs.length then
      some (base58Encode ((bs.drop o).take 32))
    else none
  | _, _ => none

/-! ### JSON values and `decodePaymentHeader`

`decodePaymentHeader` base64/JSON-decodes the header string and then
extracts fields by truthiness-based priority chains.  The embedding
works over parsed JSON values: the header-string-to-JSON step
(`Buffer.from`/`atob` + `JSON.parse`) is abstracted as a
`String → Option Json` parameter (`none` models a `JSON.parse` throw,
caught by the function's outer `try`/`catch`), and the inner base64
decode of `payload.transaction` as a `String → List Nat` parameter. -/

/-- A parsed JSON value. -/
inductive Json where
  | null : Json
  | bool : Bool → Json
  | num : ℚ → Json
  | str : String → Json
  | arr : List Json → Json
  | obj : List (String × Json) → Json

/-- Property access `j.k`: a field lookup on an object, `undefined`
(`none`) on anything else (JavaScript property access on strings,
numbers, `null`-guarded by `?.`, etc. yields `undefined` for the field
names used here). -/
def jGet : Json → String → Option Json
  | .obj fields, k => (fields.find? (fun f => f.1 = k)).map (·.2)
  | _, _ => none

/-- Optional-chaining access `o?.k`. -/
def jGetO (o : Option Json) (k : String) : Option Json :=
  o.bind (jGet · k)

/-- JavaScript truthiness of a possibly-`undefined` JSON value. -/
def jsTruthy : Option Json → Bool
  | none => false
  | some .null => false
  | some (.bool b) => b
  | some (.num q) => q ≠ 0
  | some (.str s) => s ≠ ""
  | some (.arr _) => true
  | some (.obj _) => true

/-- A `||` chain ending in `null`: the first truthy operand, or `null`
(collapsed with `undefined` into `none`). -/
def firstTruthy : List (Option Json) → Option Json
  | [] => none
  | v :: rest => if jsTruthy v then v else firstTruthy rest

/-- The `{ payer, amount, network }` record returned by
`decodePaymentHeader`. -/
structure DecodedPayment where
  payer : Option Json
  amount : Option Json
  network : Option Json

/-- Field extraction of the unnamed-module `decodePaymentHeader`
(part_002 lines 348-385), applied to the parsed JSON value `j`;
`decode` is the base64-to-bytes decode used on `payload.transaction`.
The amount chain includes `parsed.accepted?.amount`. -/
def decodeFieldsP2 (j : Json) (decode : String → List Nat) : DecodedPayment :=
  let payer0 := firstTruthy
    [ jGetO (jGetO (jGet j "payload") "authorization") "from",
      jGet j "payer",
      jGet j "from",
      jGetO (jGet j "payload") "from",
      jGetO (jGetO (jGet j "x") "signature") "address" ]
  let txField := jGetO (jGet j "payload") "transaction"
  let payer : Option Json :=
    if ¬ jsTruthy payer0 ∧ jsTruthy txField then
      match txField with
      | some (.str s) => (extractSolanaFeePayer (decode s)).map Json.str
      | _ => none
    else payer0
  let amount := firstTruthy
    [ jGetO (jGetO (jGet j "payload") "authorization") "value",
      jGetO (jGet j "accepted") "amount",
      jGet j "amount",
      jGetO (jGet j "payload") "amount" ]
  let network0 := firstTruthy
    [ jGetO (jGetO (jGet j "payload") "authorization") "network",
      jGet j "network",
      jGetO (jGet j "payload") "network" ]
  let network : Option Json :=
    if ¬ jsTruthy network0 ∧ jsTruthy txField ∧ jsTruthy payer then
      some (.str "solana:5eykt4UsFv8P8NJdTREpY1vzqKqZKvdp")
    else network0
  ⟨payer, amount, network⟩

/-- Field extraction of the `src/src/utils.ts` `decodePaymentHeader`
(lines 348-384): identical to the unnamed module except that the
Solana walk is the fee-payer-only variant and the amount chain has no
`accepted?.amount` entry. -/
def decodeFieldsUtils (j : Json) (decode : String → List Nat) : DecodedPayment :=
  let payer0 := firstTruthy
    [ jGetO (jGetO (jGet j "payload") "authorization") "from",
      jGet j "payer",
      jGet j "from",
      jGetO (jGet j "payload") "from",
      jGetO (jGetO (jGet j "x") "signature") "address" ]
  let txField := jGetO (jGet j "payload") "transaction"
  let payer : Option Json :=
    if ¬ jsTruthy payer0 ∧ jsTruthy txField then
      match txField with
      | some (.str s) => (extractSolanaFeePayerUtils (decode s)).map Json.str
      | _ => none
    else payer0
  let amount := firstTruthy
    [ jGetO (jGetO (jGet j "payload") "authorization") "value",
      jGet j "amount",
      jGetO (jGet j "payload") "amount" ]
  let network0 := firstTruthy
    [ jGetO (jGetO (jGet j "payload") "authorization") "network",
      jGet j "network",
      jGetO (jGet j "payload") "network" ]
  let network : Option Json :=
    if ¬ jsTruthy network0 ∧ jsTruthy txField ∧ jsTruthy payer then
      some (.str "solana:5eykt4UsFv8P8NJdTREpY1vzqKqZKvdp")
    else network0
  ⟨payer, amount, network⟩

/-- The unnamed-module `decodePaymentHeader` (part_002 lines 330-390):
`parse` stands for the base64-decode-then-`JSON.parse` step, with
`parse s = none` when `JSON.parse` throws; the outer `try`/`catch`
turns that throw into `null`. -/
def decodePaymentHeaderP2 (parse : String → Option Json)
    (decode : String → List Nat) (header : Option String) : Option DecodedPayment :=
  match header with
  | none => none
  | some s =>
    match parse s with
    | none => none
    | some j => some (decodeFieldsP2 j decode)

/-- The `src/src/utils.ts` `decodePaymentHeader` (lines 330-389). -/
def decodePaymentHeaderUtils (parse : String → Option Json)
    (decode : String → List Nat) (header : Option String) : Option DecodedPayment :=
  match header with
  | none => none
  | some s =>
    match parse s with
    | none => none
    | some j => some (decodeFieldsUtils j decode)

/-! ### Structured Solana transactions

To state the claim about "every Solana payment transaction", Solana
transactions are represented structurally and serialized to the wire
bytes the walker consumes.  `wfTx` says the structure is a legal wire
transaction of the (single-byte-count) shape the walker reads: counts
fit one byte, signatures are 64 bytes, account keys are 32 bytes, the
blockhash is 32 bytes, the first message byte determines versionedness
by its high bit, and every account index of every instruction resolves
inside the account table. -/

/-- One compiled instruction: program-id index, account-index list and
opaque data. -/
structure SolInstruction where
  programIdIndex : Nat
  accounts : List Nat
  data : List Nat

/-- A Solana wire transaction as the walker understands it. -/
structure SolTransaction where
  signatures : List (List Nat)
  versionByte : Option Nat
  header : Nat × Nat × Nat
  accountKeys : List (List Nat)
  recentBlockhash : List Nat
  instructions : List SolInstruction

/-- Wire bytes of one instruction: program-id index, account count,
account indices, data length, data. -/
def serializeInstruction (i : SolInstruction) : List Nat :=
  i.programIdIndex :: i.accounts.length :: (i.accounts ++ i.data.length :: i.data)

/-- Wire bytes of a transaction: signature count, signatures, optional
version byte, 3-byte message header, account count, account keys,
recent blockhash, instruction count, instructions. -/
def serializeTx (tx : SolTransaction) : List Nat :=
  tx.signatures.length :: tx.signatures.flatten
    ++ (match tx.versionByte with | some v => [v] | none => [])
    ++ [tx.header.1, tx.header.2.1, tx.header.2.2]
    ++ tx.accountKeys.length :: tx.accountKeys.flatten
    ++ tx.recentBlockhash
    ++ tx.instructions.length :: (tx.instructions.map serializeInstruction).flatten

/-- Wire well-formedness of an instruction relative to an account table
of `nKeys` entries. -/
def wfInstruction (nKeys : Nat) (i : SolInstruction) : Bool :=
  i.programIdIndex < nKeys &&
  i.accounts.length < 256 &&
  i.accounts.all (fun a => a < nKeys && a < 256) &&
  i.data.length < 256 &&
  i.data.all (· < 256)

/-- Wire well-formedness of a transaction. -/
def wfTx (tx : SolTransaction) : Bool :=
  tx.signatures.length < 256 &&
  tx.signatures.all (fun s => s.length = 64 && s.all (· < 256)) &&
  (match tx.versionByte with
   | none => decide (tx.header.1 < 128)
   | some v => 128 ≤ v && v < 256) &&
  tx.header.1 < 256 && tx.header.2.1 < 256 && tx.header.2.2 < 256 &&
  0 < tx.accountKeys.length && tx.accountKeys.length < 256 &&
  tx.accountKeys.all (fun k => k.length = 32 && k.all (· < 256)) &&
  tx.recentBlockhash.length = 32 && tx.recentBlockhash.all (· < 256) &&
  tx.instructions.length < 256 &&
  tx.instructions.all (wfInstruction tx.accountKeys.length)

/-- An instruction qualifies as the token transfer the walker stops at:
its program id resolves to one of the two SPL Token programs and it
lists at least 3 accounts. -/
def instrQualifies (keys : List (List Nat)) (i : SolInstruction) : Bool :=
  match keys.get? i.programIdIndex with
  | some k =>
    (base58Encode k = SPL_TOKEN_PROGRAM || base58Encode k = SPL_TOKEN_2022_PROGRAM) &&
    3 ≤ i.accounts.length
  | none => false

/-- The account-table index the payer is read from on a qualifying
instruction: instruction account 3 (TransferChecked authority) when it
lists at least 4 accounts, else instruction account 2 (Transfer
authority). -/
def authorityIndex (i : SolInstruction) : Nat :=
  if 4 ≤ i.accounts.length then i.accounts.getD 3 0 else i.accounts.getD 2 0

/-- The claim-level description of the walk: the first qualifying
instruction in transaction order determines the payer via its
authority account; with no qualifying instruction, the fee payer
(account-table entry 0) is returned. -/
def solanaClaimPayer (tx : SolTransaction) : Option String :=
  match tx.instructions.find? (instrQualifies tx.accountKeys) with
  | some i => (tx.accountKeys.get? (authorityIndex i)).map base58Encode
  | none => (tx.accountKeys.get? 0).map base58Encode

/-! ### Positional reading lemmas for the wire walk -/

set_option maxRecDepth 4096 in
theorem and128_lt (n : Nat) (h : n < 256) : (n &&& 128 = 0) = (n < 128) := by
  revert h
  revert n
  decide

theorem mapSome_getD (ll : List Nat) (d : Option Nat) (n : Nat) :
    (ll.map some).getD n d = match ll.get? n with | some x => some x | none => d := by
  induction ll generalizing n with
  | nil => cases n <;> simp [List.getD]
  | cons a t ih =>
    cases n with
    | zero => simp [List.getD]
    | succ m =>
      simp only [List.map_cons, List.getD_cons_succ, List.get?_cons_succ]
      exact ih m

theorem getAt {α : Type} (pre : List α) (x : α) (rest : List α) :
    (pre ++ x :: rest).get? pre.length = some x := by
  induction pre with
  | nil => rfl
  | cons a t ih => simpa using ih

theorem getAtLen {α : Type} (pre : List α) (x : α) (rest : List α) (n : Nat)
    (h : n = pre.length) : (pre ++ x :: rest).get? n = some x :=
  h ▸ getAt pre x rest

theorem flatten_length_const {α : Type} (c : Nat) (l : List (List α))
    (h : ∀ s ∈ l, s.length = c) : l.flatten.length = c * l.length := by
  induction l with
  | nil => simp
  | cons a t ih =>
    have ha : a.length = c := h a (by simp)
    have ht := ih (fun s hs => h s (by simp [hs]))
    simp [List.flatten_cons, ha, ht, Nat.mul_succ, Nat.add_comm]

theorem readKeys_spec (keys : List (List Nat)) (pre post : List Nat)
    (hk : ∀ k ∈ keys, k.length = 32) :
    readKeys (pre ++ (keys.flatten ++ post)) pre.length keys.length = keys := by
  induction keys generalizing pre with
  | nil => simp [readKeys]
  | cons k ks ih =>
    have hk32 : k.length = 32 := hk k (by simp)
    have hshape : pre ++ ((k :: ks).flatten ++ post) = pre ++ (k ++ (ks.flatten ++ post)) := by
      simp [List.flatten_cons, List.append_assoc]
    rw [hshape]
    simp only [readKeys, List.length_cons, List.cons.injEq]
    refine ⟨?_, ?_⟩
    · rw [List.drop_left, ← hk32, List.take_left]
    · have hshape2 : pre ++ (k ++ (ks.flatten ++ post)) = (pre ++ k) ++ (ks.flatten ++ post) := by
        simp [List.append_assoc]
      have hlen : pre.length + 32 = (pre ++ k).length := by
        simp [List.length_append, hk32]
      rw [hshape2, hlen]
      exact ih (pre ++ k) (fun s hs => hk s (by simp [hs]))

theorem readIxIndices_spec (idxs : List Nat) (pre post : List Nat) :
    readIxIndices (pre ++ (idxs ++ post)) pre.length idxs.length = idxs.map some := by
  induction idxs generalizing pre with
  | nil => simp [readIxIndices]
  | cons a t ih =>
    simp only [readIxIndices, List.length_cons, List.map_cons, List.cons.injEq]
    refine ⟨?_, ?_⟩
    · exact getAt pre a (t ++ post)
    · have hshape : pre ++ (a :: t ++ post) = (pre ++ [a]) ++ (t ++ post) := by
        simp [List.append_assoc]
      have hlen : pre.length + 1 = (pre ++ [a]).length := by simp
      rw [hshape, hlen]
      exact ih (pre ++ [a])

/-- Walking the instruction region: provided every instruction is
well-formed over the account table, the loop returns the authority of
the first qualifying token instruction, or falls back to account 0. -/
theorem instrLoop_spec (keys : List (List Nat)) (instrs : List SolInstruction)
    (pre post : List Nat) (hne : keys ≠ [])
    (hwf : ∀ i ∈ instrs, wfInstruction keys.length i = true) :
    instrLoop (pre ++ ((instrs.map serializeInstruction).flatten ++ post)) keys
      instrs.length (some pre.length)
    = .ok (match instrs.find? (instrQualifies keys) with
           | some i => (keys.get? (authorityIndex i)).map base58Encode
           | none => (keys.get? 0).map base58Encode) := by
  induction instrs generalizing pre with
  | nil =>
    cases keys with
    | nil => exact absurd rfl hne
    | cons k t => simp [instrLoop, List.find?]
  | cons i rest ih =>
    have hwfi : wfInstruction keys.length i = true := hwf i (by simp)
    simp only [wfInstruction, Bool.and_eq_true, decide_eq_true_eq, List.all_eq_true] at hwfi
    obtain ⟨⟨⟨⟨hpid, hlacc⟩, haccs⟩, hldata⟩, hdata⟩ := hwfi
    have hshape : pre ++ (((i :: rest).map serializeInstruction).flatten ++ post)
        = pre ++ (i.programIdIndex :: i.accounts.length :: (i.accounts ++ (i.data.length :: (i.data ++
            ((rest.map serializeInstruction).flatten ++ post))))) := by
      simp [serializeInstruction, List.flatten_cons, List.append_assoc]
    rw [hshape]
    have h1 : (pre ++ (i.programIdIndex :: i.accounts.length :: (i.accounts ++ (i.data.length :: (i.data ++
            ((rest.map serializeInstruction).flatten ++ post)))))).get? pre.length
        = some i.programIdIndex := getAt pre _ _
    have h2 : (pre ++ (i.programIdIndex :: i.accounts.length :: (i.accounts ++ (i.data.length :: (i.data ++
            ((rest.map serializeInstruction).flatten ++ post)))))).get? (pre.length + 1)
        = some i.accounts.length := by
      rw [show pre ++ (i.programIdIndex :: i.accounts.length :: (i.accounts ++ (i.data.length :: (i.data ++
            ((rest.map serializeInstruction).flatten ++ post)))))
          = (pre ++ [i.programIdIndex]) ++ (i.accounts.length :: (i.accounts ++ (i.data.length :: (i.data ++
            ((rest.map serializeInstruction).flatten ++ post))))) by simp]
      exact getAtLen _ _ _ _ (by simp)
    have h3 : readIxIndices (pre ++ (i.programIdIndex :: i.accounts.length :: (i.accounts ++ (i.data.length :: (i.data ++
            ((rest.map serializeInstruction).flatten ++ post)))))) (pre.length + 1 + 1) i.accounts.length
        = i.accounts.map some := by
      rw [show pre ++ (i.programIdIndex :: i.accounts.length :: (i.accounts ++ (i.data.length :: (i.data ++
            ((rest.map serializeInstruction).flatten ++ post)))))
          = (pre ++ [i.programIdIndex, i.accounts.length]) ++ (i.accounts ++ (i.data.length :: (i.data ++
            ((rest.map serializeInstruction).flatten ++ post)))) by simp]
      rw [show pre.length + 1 + 1 = (pre ++ [i.programIdIndex, i.accounts.length]).length by simp]
      exact readIxIndices_spec _ _ _
    have h4 : (pre ++ (i.programIdIndex :: i.accounts.length :: (i.accounts ++ (i.data.length :: (i.data ++
            ((rest.map serializeInstruction).flatten ++ post)))))).get? (pre.length + 1 + 1 + i.accounts.length)
        = some i.data.length := by
      rw [show pre ++ (i.programIdIndex :: i.accounts.length :: (i.accounts ++ (i.data.length :: (i.data ++
            ((rest.map serializeInstruction).flatten ++ post)))))
          = ((pre ++ [i.programIdIndex, i.accounts.length]) ++ i.accounts) ++ (i.data.length :: (i.data ++
            ((rest.map serializeInstruction).flatten ++ post))) by simp]
      exact getAtLen _ _ _ _ (by simp [List.length_append]; omega)
    have hk : keys.get? i.programIdIndex = some keys[i.programIdIndex] := by
      rw [List.get?_eq_get hpid]
      simp
    simp only [List.length_cons, instrLoop, jsByte, jsAdd, Option.map_some', h1, h2, h3, h4,
      Option.getD_some, List.length_map, resolveKey, hk]
    have hrec : instrLoop (pre ++ (i.programIdIndex :: i.accounts.length :: (i.accounts ++ (i.data.length :: (i.data ++
            ((rest.map serializeInstruction).flatten ++ post)))))) keys rest.length
        (some (pre.length + 1 + 1 + i.accounts.length + (1 + i.data.length)))
        = .ok (match rest.find? (instrQualifies keys) with
               | some j => (keys.get? (authorityIndex j)).map base58Encode
               | none => (keys.get? 0).map base58Encode) := by
      rw [show pre ++ (i.programIdIndex :: i.accounts.length :: (i.accounts ++ (i.data.length :: (i.data ++
            ((rest.map serializeInstruction).flatten ++ post)))))
          = (pre ++ (i.programIdIndex :: i.accounts.length :: (i.accounts ++ (i.data.length :: i.data))))
            ++ ((rest.map serializeInstruction).flatten ++ post) by simp [List.append_assoc]]
      rw [show pre.length + 1 + 1 + i.accounts.length + (1 + i.data.length)
          = (pre ++ (i.programIdIndex :: i.accounts.length :: (i.accounts ++ (i.data.length :: i.data)))).length by
        simp [List.length_append]; omega]
      exact ih _ (fun j hj => hwf j (by simp [hj]))
    by_cases htok : base58Encode keys[i.programIdIndex] = SPL_TOKEN_PROGRAM ∨
        base58Encode keys[i.programIdIndex] = SPL_TOKEN_2022_PROGRAM
    · by_cases h4le : 4 ≤ i.accounts.length
      · -- TransferChecked shape: authority is instruction account 3
        have h3lt : 3 < i.accounts.length := by omega
        have h3le : 3 ≤ i.accounts.length := by omega
        have hgd3 : (i.accounts.map some).getD 3 none = some i.accounts[3] := by
          rw [mapSome_getD, List.get?_eq_get h3lt]
          simp
        have ha3 : i.accounts[3] < keys.length :=
          (haccs _ (List.getElem_mem h3lt)).1
        have hka : keys.get? i.accounts[3] = some keys[i.accounts[3]] := by
          rw [List.get?_eq_get ha3]
          simp
        have hqt : instrQualifies keys i = true := by
          simp only [instrQualifies, hk]
          rcases htok with h | h <;> simp [h, h3le]
        rw [if_pos htok, if_pos h4le, hgd3, List.find?_cons_of_pos _ hqt]
        simp only [hka, authorityIndex, if_pos h4le]
        rw [show i.accounts.getD 3 0 = i.accounts[3] by
          rw [List.getD_eq_getElem?_getD, List.getElem?_eq_getElem h3lt]
          rfl]
        rw [hka]
        rfl
      · by_cases h3le : 3 ≤ i.accounts.length
        · -- Transfer shape: authority is instruction account 2
          have h2lt : 2 < i.accounts.length := by omega
          have hgd2 : (i.accounts.map some).getD 2 none = some i.accounts[2] := by
            rw [mapSome_getD, List.get?_eq_get h2lt]
            simp
          have ha2 : i.accounts[2] < keys.length :=
            (haccs _ (List.getElem_mem h2lt)).1
          have hka : keys.get? i.accounts[2] = some keys[i.accounts[2]] := by
            rw [List.get?_eq_get ha2]
            simp
          have hqt : instrQualifies keys i = true := by
            simp only [instrQualifies, hk]
            rcases htok with h | h <;> simp [h, h3le]
          rw [if_pos htok, if_neg h4le, if_pos h3le, hgd2, List.find?_cons_of_pos _ hqt]
          simp only [hka, authorityIndex, if_neg h4le]
          rw [show i.accounts.getD 2 0 = i.accounts[2] by
            rw [List.getD_eq_getElem?_getD, List.getElem?_eq_getElem h2lt]
            rfl]
          rw [hka]
          rfl
        · -- SPL program id but fewer than 3 accounts: the loop continues
          have hqf : instrQualifies keys i = false := by
            simp only [instrQualifies, hk]
            simp [h3le]
          rw [if_pos htok, if_neg h4le, if_neg h3le, List.find?_cons_of_neg _ (by simp [hqf])]
          exact hrec
    · -- not a token-program instruction: the loop continues
      have hqf : instrQualifies keys i = false := by
        push_neg at htok
        simp only [instrQualifies, hk]
        simp [htok.1, htok.2]
      rw [if_neg htok, List.find?_cons_of_neg _ (by simp [hqf])]
      exact hrec

/-- The Solana walk, applied to the wire bytes of any well-formed
transaction, computes exactly the claim-level payer function. -/
theorem extractSolanaFeePayer_serializeTx (tx : SolTransaction) (h : wfTx tx = true) :
    extractSolanaFeePayer (serializeTx tx) = solanaClaimPayer tx := by
  simp only [wfTx, Bool.and_eq_true, decide_eq_true_eq, List.all_eq_true] at h
  obtain ⟨⟨⟨⟨⟨⟨⟨⟨⟨⟨⟨⟨hLsig, hsig⟩, hver⟩, hh1⟩, hh2⟩, hh3⟩, hkpos⟩, hklen⟩, hkeys⟩, hbh⟩, hbhb⟩, hlinstr⟩, hinstr⟩ := h
  have hsf : tx.signatures.flatten.length = 64 * tx.signatures.length :=
    flatten_length_const 64 _ (fun s hs => ((hsig s hs).1))
  have hkf : tx.accountKeys.flatten.length = 32 * tx.accountKeys.length :=
    flatten_length_const 32 _ (fun s hs => ((hkeys s hs).1))
  have hwfi : ∀ i ∈ tx.instructions, wfInstruction tx.accountKeys.length i = true := hinstr
  cases hv : tx.versionByte with
  | none =>
    have hh1lt : tx.header.1 < 128 := by rw [hv] at hver; simpa using hver
    have hbsform : serializeTx tx
        = tx.signatures.length :: (tx.signatures.flatten ++ ([tx.header.1, tx.header.2.1, tx.header.2.2]
          ++ (tx.accountKeys.length :: (tx.accountKeys.flatten ++ (tx.recentBlockhash
          ++ (tx.instructions.length :: (tx.instructions.map serializeInstruction).flatten)))))) := by
      simp [serializeTx, hv, List.append_assoc]
    have r0 : (serializeTx tx).get? 0 = some tx.signatures.length := by
      rw [hbsform]; rfl
    have rv : (serializeTx tx).get? (1 + tx.signatures.length * 64) = some tx.header.1 := by
      rw [hbsform]
      rw [show tx.signatures.length :: (tx.signatures.flatten ++ ([tx.header.1, tx.header.2.1, tx.header.2.2]
          ++ (tx.accountKeys.length :: (tx.accountKeys.flatten ++ (tx.recentBlockhash
          ++ (tx.instructions.length :: (tx.instructions.map serializeInstruction).flatten))))))
        = (tx.signatures.length :: tx.signatures.flatten) ++ (tx.header.1 :: ([tx.header.2.1, tx.header.2.2]
          ++ (tx.accountKeys.length :: (tx.accountKeys.flatten ++ (tx.recentBlockhash
          ++ (tx.instructions.length :: (tx.instructions.map serializeInstruction).flatten)))))) by simp]
      exact getAtLen _ _ _ _ (by simp [hsf]; omega)
    have hand : tx.header.1 &&& 128 = 0 := by
      rw [and128_lt _ (by omega)]; exact hh1lt
    have rn : (serializeTx tx).get? (1 + tx.signatures.length * 64 + 3) = some tx.accountKeys.length := by
      rw [hbsform]
      rw [show tx.signatures.length :: (tx.signatures.flatten ++ ([tx.header.1, tx.header.2.1, tx.header.2.2]
          ++ (tx.accountKeys.length :: (tx.accountKeys.flatten ++ (tx.recentBlockhash
          ++ (tx.instructions.length :: (tx.instructions.map serializeInstruction).flatten))))))
        = ((tx.signatures.length :: tx.signatures.flatten) ++ [tx.header.1, tx.header.2.1, tx.header.2.2])
          ++ (tx.accountKeys.length :: (tx.accountKeys.flatten ++ (tx.recentBlockhash
          ++ (tx.instructions.length :: (tx.instructions.map serializeInstruction).flatten)))) by simp]
      exact getAtLen _ _ _ _ (by simp [hsf]; omega)
    have rkeys : readKeys (serializeTx tx) (1 + tx.signatures.length * 64 + 3 + 1) tx.accountKeys.length
        = tx.accountKeys := by
      rw [hbsform]
      rw [show tx.signatures.length :: (tx.signatures.flatten ++ ([tx.header.1, tx.header.2.1, tx.header.2.2]
          ++ (tx.accountKeys.length :: (tx.accountKeys.flatten ++ (tx.recentBlockhash
          ++ (tx.instructions.length :: (tx.instructions.map serializeInstruction).flatten))))))
        = ((tx.signatures.length :: tx.signatures.flatten) ++ [tx.header.1, tx.header.2.1, tx.header.2.2]
            ++ [tx.accountKeys.length])
          ++ (tx.accountKeys.flatten ++ (tx.recentBlockhash
          ++ (tx.instructions.length :: (tx.instructions.map serializeInstruction).flatten))) by simp]
      rw [show 1 + tx.signatures.length * 64 + 3 + 1
          = ((tx.signatures.length :: tx.signatures.flatten) ++ [tx.header.1, tx.header.2.1, tx.header.2.2]
            ++ [tx.accountKeys.length]).length by simp [hsf]; omega]
      exact readKeys_spec _ _ _ (fun k hk => (hkeys k hk).1)
    have rni : (serializeTx tx).get? (1 + tx.signatures.length * 64 + 3 + 1 + 32 * tx.accountKeys.length + 32)
        = some tx.instructions.length := by
      rw [hbsform]
      rw [show tx.signatures.length :: (tx.signatures.flatten ++ ([tx.header.1, tx.header.2.1, tx.header.2.2]
          ++ (tx.accountKeys.length :: (tx.accountKeys.flatten ++ (tx.recentBlockhash
          ++ (tx.instructions.length :: (tx.instructions.map serializeInstruction).flatten))))))
        = ((tx.signatures.length :: tx.signatures.flatten) ++ [tx.header.1, tx.header.2.1, tx.header.2.2]
            ++ [tx.accountKeys.length] ++ tx.accountKeys.flatten ++ tx.recentBlockhash)
          ++ (tx.instructions.length :: (tx.instructions.map serializeInstruction).flatten) by simp]
      exact getAtLen _ _ _ _ (by simp [hsf, hkf, hbh]; omega)
    have rinstr : instrLoop (serializeTx tx) tx.accountKeys tx.instructions.length
        (some (1 + tx.signatures.length * 64 + 3 + 1 + 32 * tx.accountKeys.length + 32 + 1))
        = .ok (match tx.instructions.find? (instrQualifies tx.accountKeys) with
               | some i => (tx.accountKeys.get? (authorityIndex i)).map base58Encode
               | none => (tx.accountKeys.get? 0).map base58Encode) := by
      rw [hbsform]
      rw [show tx.signatures.length :: (tx.signatures.flatten ++ ([tx.header.1, tx.header.2.1, tx.header.2.2]
          ++ (tx.accountKeys.length :: (tx.accountKeys.flatten ++ (tx.recentBlockhash
          ++ (tx.instructions.length :: (tx.instructions.map serializeInstruction).flatten))))))
        = ((tx.signatures.length :: tx.signatures.flatten) ++ [tx.header.1, tx.header.2.1, tx.header.2.2]
            ++ [tx.accountKeys.length] ++ tx.accountKeys.flatten ++ tx.recentBlockhash
            ++ [tx.instructions.length])
          ++ ((tx.instructions.map serializeInstruction).flatten ++ []) by simp]
      rw [show 1 + tx.signatures.length * 64 + 3 + 1 + 32 * tx.accountKeys.length + 32 + 1
          = ((tx.signatures.length :: tx.signatures.flatten) ++ [tx.header.1, tx.header.2.1, tx.header.2.2]
            ++ [tx.accountKeys.length] ++ tx.accountKeys.flatten ++ tx.recentBlockhash
            ++ [tx.instructions.length]).length by simp [hsf, hkf, hbh]; omega]
      exact instrLoop_spec _ _ _ _ (by intro hc; rw [hc] at hkpos; simp at hkpos) hwfi
    simp only [extractSolanaFeePayer, solanaWalk, jsByte, jsAdd, Option.map_some', r0, rv,
      Option.getD_some, hand, rn, rkeys, rni]
    have hne0 : ¬ (tx.accountKeys.length = 0) := by omega
    simp only [ne_eq, not_true_eq_false, if_false, eq_self_iff_true, Option.map_some',
      Option.getD_some, rn, rkeys, rni, hne0, if_true, rinstr]
    rfl
  | some v =>
    have hvlt : 128 ≤ v ∧ v < 256 := by
      rw [hv] at hver; simpa using hver
    have hbsform : serializeTx tx
        = tx.signatures.length :: (tx.signatures.flatten ++ (v :: ([tx.header.1, tx.header.2.1, tx.header.2.2]
          ++ (tx.accountKeys.length :: (tx.accountKeys.flatten ++ (tx.recentBlockhash
          ++ (tx.instructions.length :: (tx.instructions.map serializeInstruction).flatten))))))) := by
      simp [serializeTx, hv, List.append_assoc]
    have r0 : (serializeTx tx).get? 0 = some tx.signatures.length := by
      rw [hbsform]; rfl
    have rv : (serializeTx tx).get? (1 + tx.signatures.length * 64) = some v := by
      rw [hbsform]
      rw [show tx.signatures.length :: (tx.signatures.flatten ++ (v :: ([tx.header.1, tx.header.2.1, tx.header.2.2]
          ++ (tx.accountKeys.length :: (tx.accountKeys.flatten ++ (tx.recentBlockhash
          ++ (tx.instructions.length :: (tx.instructions.map serializeInstruction).flatten)))))))
        = (tx.signatures.length :: tx.signatures.flatten) ++ (v :: ([tx.header.1, tx.header.2.1, tx.header.2.2]
          ++ (tx.accountKeys.length :: (tx.accountKeys.flatten ++ (tx.recentBlockhash
          ++ (tx.instructions.length :: (tx.instructions.map serializeInstruction).flatten)))))) by simp]
      exact getAtLen _ _ _ _ (by simp [hsf]; omega)
    have hand : ¬ (v &&& 128 = 0) := by
      rw [and128_lt _ hvlt.2]; omega
    have rn : (serializeTx tx).get? (1 + tx.signatures.length * 64 + 1 + 3) = some tx.accountKeys.length := by
      rw [hbsform]
      rw [show tx.signatures.length :: (tx.signatures.flatten ++ (v :: ([tx.header.1, tx.header.2.1, tx.header.2.2]
          ++ (tx.accountKeys.length :: (tx.accountKeys.flatten ++ (tx.recentBlockhash
          ++ (tx.instructions.length :: (tx.instructions.map serializeInstruction).flatten)))))))
        = ((tx.signatures.length :: tx.signatures.flatten) ++ [v, tx.header.1, tx.header.2.1, tx.header.2.2])
          ++ (tx.accountKeys.length :: (tx.accountKeys.flatten ++ (tx.recentBlockhash
          ++ (tx.instructions.length :: (tx.instructions.map serializeInstruction).flatten)))) by simp]
      exact getAtLen _ _ _ _ (by simp [hsf]; omega)
    have rkeys : readKeys (serializeTx tx) (1 + tx.signatures.length * 64 + 1 + 3 + 1) tx.accountKeys.length
        = tx.accountKeys := by
      rw [hbsform]
      rw [show tx.signatures.length :: (tx.signatures.flatten ++ (v :: ([tx.header.1, tx.header.2.1, tx.header.2.2]
          ++ (tx.accountKeys.length :: (tx.accountKeys.flatten ++ (tx.recentBlockhash
          ++ (tx.instructions.length :: (tx.instructions.map serializeInstruction).flatten)))))))
        = ((tx.signatures.length :: tx.signatures.flatten) ++ [v, tx.header.1, tx.header.2.1, tx.header.2.2]
            ++ [tx.accountKeys.length])
          ++ (tx.accountKeys.flatten ++ (tx.recentBlockhash
          ++ (tx.instructions.length :: (tx.instructions.map serializeInstruction).flatten))) by simp]
      rw [show 1 + tx.signatures.length * 64 + 1 + 3 + 1
          = ((tx.signatures.length :: tx.signatures.flatten) ++ [v, tx.header.1, tx.header.2.1, tx.header.2.2]
            ++ [tx.accountKeys.length]).length by simp [hsf]; omega]
      exact readKeys_spec _ _ _ (fun k hk => (hkeys k hk).1)
    have rni : (serializeTx tx).get? (1 + tx.signatures.length * 64 + 1 + 3 + 1 + 32 * tx.accountKeys.length + 32)
        = some tx.instructions.length := by
      rw [hbsform]
      rw [show tx.signatures.length :: (tx.signatures.flatten ++ (v :: ([tx.header.1, tx.header.2.1, tx.header.2.2]
          ++ (tx.accountKeys.length :: (tx.accountKeys.flatten ++ (tx.recentBlockhash
          ++ (tx.instructions.length :: (tx.instructions.map serializeInstruction).flatten)))))))
        = ((tx.signatures.length :: tx.signatures.flatten) ++ [v, tx.header.1, tx.header.2.1, tx.header.2.2]
            ++ [tx.accountKeys.length] ++ tx.accountKeys.flatten ++ tx.recentBlockhash)
          ++ (tx.instructions.length :: (tx.instructions.map serializeInstruction).flatten) by simp]
      exact getAtLen _ _ _ _ (by simp [hsf, hkf, hbh]; omega)
    have rinstr : instrLoop (serializeTx tx) tx.accountKeys tx.instructions.length
        (some (1 + tx.signatures.length * 64 + 1 + 3 + 1 + 32 * tx.accountKeys.length + 32 + 1))
        = .ok (match tx.instructions.find? (instrQualifies tx.accountKeys) with
               | some i => (tx.accountKeys.get? (authorityIndex i)).map base58Encode
               | none => (tx.accountKeys.get? 0).map base58Encode) := by
      rw [hbsform]
      rw [show tx.signatures.length :: (tx.signatures.flatten ++ (v :: ([tx.header.1, tx.header.2.1, tx.header.2.2]
          ++ (tx.accountKeys.length :: (tx.accountKeys.flatten ++ (tx.recentBlockhash
          ++ (tx.instructions.length :: (tx.instructions.map serializeInstruction).flatten)))))))
        = ((tx.signatures.length :: tx.signatures.flatten) ++ [v, tx.header.1, tx.header.2.1, tx.header.2.2]
            ++ [tx.accountKeys.length] ++ tx.accountKeys.flatten ++ tx.recentBlockhash
            ++ [tx.instructions.length])
          ++ ((tx.instructions.map serializeInstruction).flatten ++ []) by simp]
      rw [show 1 + tx.signatures.length * 64 + 1 + 3 + 1 + 32 * tx.accountKeys.length + 32 + 1
          = ((tx.signatures.length :: tx.signatures.flatten) ++ [v, tx.header.1, tx.header.2.1, tx.header.2.2]
            ++ [tx.accountKeys.length] ++ tx.accountKeys.flatten ++ tx.recentBlockhash
            ++ [tx.instructions.length]).length by simp [hsf, hkf, hbh]; omega]
      exact instrLoop_spec _ _ _ _ (by intro hc; rw [hc] at hkpos; simp at hkpos) hwfi
    have hne0 : ¬ (tx.accountKeys.length = 0) := by omega
    simp only [extractSolanaFeePayer, solanaWalk, jsByte, jsAdd, Option.map_some', r0, rv,
      Option.getD_some, if_pos hand, rn, rkeys, rni, hne0, rinstr]
    simp only [ne_eq, not_true_eq_false, if_false, eq_self_iff_true, Option.map_some',
      Option.getD_some, rn, rkeys, rni, hne0, if_true, rinstr]
    rfl

/-! ### Response validator (`validateResponse` and helpers)

Response bodies are parsed JSON values; `none` models `undefined`,
`some Json.null` models `null`.  Scores are `ℚ` (JavaScript floats with
exact arithmetic).  The caller-supplied custom validator may throw; it
is modelled as returning `Except String ValidationResult`, the error
carrying the exception message. -/

/-- One validation check, as in the `ValidationCheck` interface. -/
structure ValidationCheck where
  name : String
  passed : Bool
  message : String
deriving DecidableEq

/-- The result record of `validateResponse`. -/
structure ValidationResult where
  valid : Bool
  checks : List ValidationCheck
  meaningfulnessScore : ℚ
  reason : Option String
deriving DecidableEq

/-- The `ValidationConfig` fields `validateResponse` consults; every
field is optional on the TypeScript side. -/
structure ValidationConfig where
  minResponseSize : Option Nat
  requiredFields : Option (List String)
  errorFields : Option (List String)
  rejectEmptyCollections : Option Bool
  customValidator : Option (Option Json → Int → Except String ValidationResult)

/-- `isEmptyResponse` from utils: `undefined`, `null` and `""` are
empty; a string is empty when its trimmed length is below `minSize`; an
array or object is empty when it has no elements or keys; any other
value is not empty. -/
def isEmptyResponse (body : Option Json) (minSize : Nat) : Bool :=
  match body with
  | none => true
  | some .null => true
  | some (.str s) => if s = "" then true else decide (s.trim.length < minSize)
  | some (.arr xs) => xs.isEmpty
  | some (.obj fields) => fields.isEmpty
  | some (.num _) => false
  | some (.bool _) => false

/-- Whether a present, non-null error-field value counts as an error
indicator: a non-empty string, an object or array with at least one
key, or the boolean `true`. -/
def errValueTriggers : Json → Bool
  | .str s => decide (0 < s.length)
  | .obj fields => decide (0 < fields.length)
  | .arr xs => decide (0 < xs.length)
  | .bool b => b
  | .num _ => false
  | .null => false

/-- `hasErrorIndicators` from utils: only truthy objects are examined;
each configured field that is present and non-null is tested with
`errValueTriggers`, and a top-level `ok: false` or `success: false`
always counts. -/
def hasErrorIndicators (body : Option Json) (errorFields : List String) : Bool :=
  match body with
  | some (.obj fields) =>
    (errorFields.any (fun f =>
      match jGet (.obj fields) f with
      | some .null => false
      | some v => errValueTriggers v
      | none => false)) ||
    (match jGet (.obj fields) "ok" with
     | some (.bool false) => true
     | _ =>
       match jGet (.obj fields) "success" with
       | some (.bool false) => true
       | _ => false)
  | _ => false

/-- `checkEmptyCollections` from the validator module: the body itself
is an empty array or object, or some top-level value is. -/
def checkEmptyCollections : Json → Bool
  | .arr xs => xs.isEmpty
  | .obj fields =>
    fields.isEmpty ||
    fields.any (fun kv =>
      match kv.2 with
      | .arr xs => xs.isEmpty
      | .obj fields2 => fields2.isEmpty
      | _ => false)
  | _ => false

/-- The missing-required-fields computation of `validateResponse`
(part_001 lines 252-263): on a plain object, the configured fields
that are absent or null; on any other body, all configured fields. -/
def missingRequiredFields (body : Option Json) (requiredFields : List String) : List String :=
  match body with
  | some (.obj fields) =>
    requiredFields.filter (fun f =>
      match jGet (.obj fields) f with
      | some .null => true
      | some _ => false
      | none => true)
  | _ => requiredFields

/-- The check list accumulated by `validateResponse` (part_001 lines
214-308): one entry per executed check, in evaluation order, plus the
custom validator's own checks (or its synthesized failed
`custom_validator` check when it throws). -/
def vrChecks (body : Option Json) (statusCode : Int)
    (config : ValidationConfig) : List ValidationCheck :=
  let isSuccessStatus : Bool := decide (200 ≤ statusCode) && decide (statusCode < 300)
  let checks1 : List ValidationCheck :=
    [ValidationCheck.mk "status_code" (isSuccessStatus)
      (if isSuccessStatus then "Success status code"
      else "Non-success status: " ++ toString statusCode)]
  let isEmpty := isEmptyResponse body (config.minResponseSize.getD 2)
  let checks2 := checks1 ++
    [ValidationCheck.mk "not_empty" (!isEmpty)
      (if isEmpty then "Response is empty or too small" else "Response has content")]
  let hasErrors := hasErrorIndicators body (config.errorFields.getD ["error", "errors"])
  let checks3 := checks2 ++
    [ValidationCheck.mk "no_error_fields" (!hasErrors)
      (if hasErrors then "Response contains error indicators" else "No error indicators found")]
  let checks4 :=
    match config.requiredFields with
    | none => checks3
    | some requiredFields =>
      if 0 < requiredFields.length then
        let missingFields := missingRequiredFields body requiredFields
        let hasRequired := missingFields.isEmpty
        checks3 ++
          [ValidationCheck.mk "required_fields" (hasRequired)
            (if hasRequired then "All required fields present"
            else "Missing fields: " ++ String.intercalate ", " missingFields)]
      else checks3
  let checks5 :=
    if config.rejectEmptyCollections.getD false then
      match body with
      | some (.obj fields) =>
        let hasEmptyCollection := checkEmptyCollections (.obj fields)
        checks4 ++
          [ValidationCheck.mk "non_empty_collections" (!hasEmptyCollection)
            (if hasEmptyCollection then "Response contains empty arrays or objects"
            else "Collections have content")]
      | some (.arr xs) =>
        let hasEmptyCollection := checkEmptyCollections (.arr xs)
        checks4 ++
          [ValidationCheck.mk "non_empty_collections" (!hasEmptyCollection)
            (if hasEmptyCollection then "Response contains empty arrays or objects"
            else "Collections have content")]
      | _ => checks4
    else checks4
  match config.customValidator with
  | none => checks5
  | some customValidator =>
    match customValidator body statusCode with
    | .ok customResult => checks5 ++ customResult.checks
    | .error msg =>
      checks5 ++ [ValidationCheck.mk "custom_validator" false ("Custom validator error: " ++ msg)]

/-- The meaningfulness score after check 1 (status code) of
`validateResponse`: 1.0 less 0.3 on a non-2xx status. -/
def vrScore1 (statusCode : Int) : ℚ :=
  let isSuccessStatus : Bool := decide (200 ≤ statusCode) && decide (statusCode < 300)
  if isSuccessStatus then 1 else 1 - 0.3

/-- The score after check 2 (not-empty): 0.4 subtracted when the body
is empty. -/
def vrScore2 (body : Option Json) (statusCode : Int) (config : ValidationConfig) : ℚ :=
  if isEmptyResponse body (config.minResponseSize.getD 2) then
    vrScore1 statusCode - 0.4
  else vrScore1 statusCode

/-- The score after check 3 (no-error-indicators): 0.3 subtracted when
error indicators are present. -/
def vrScore3 (body : Option Json) (statusCode : Int) (config : ValidationConfig) : ℚ :=
  if hasErrorIndicators body (config.errorFields.getD ["error", "errors"]) then
    vrScore2 body statusCode config - 0.3
  else vrScore2 body statusCode config

/-- The score after check 4 (required fields): 0.2 subtracted when
required fields are configured, non-empty and some are missing. -/
def vrScore4 (body : Option Json) (statusCode : Int) (config : ValidationConfig) : ℚ :=
  match config.requiredFields with
  | none => vrScore3 body statusCode config
  | some requiredFields =>
    if 0 < requiredFields.length then
      if (missingRequiredFields body requiredFields).isEmpty then
        vrScore3 body statusCode config
      else vrScore3 body statusCode config - 0.2
    else vrScore3 body statusCode config

/-- The score after check 5 (empty collections): 0.1 subtracted when
the opt-in check runs and finds an empty collection. -/
def vrScore5 (body : Option Json) (statusCode : Int) (config : ValidationConfig) : ℚ :=
  if config.rejectEmptyCollections.getD false then
    match body with
    | some (.obj fields) =>
      if checkEmptyCollections (.obj fields) then
        vrScore4 body statusCode config - 0.1
      else vrScore4 body statusCode config
    | some (.arr xs) =>
      if checkEmptyCollections (.arr xs) then
        vrScore4 body statusCode config - 0.1
      else vrScore4 body statusCode config
    | _ => vrScore4 body statusCode config
  else vrScore4 body statusCode config

/-- The pre-clamp meaningfulness score accumulated by
`validateResponse` (part_001 lines 214-308), after check 6 (the
custom validator): 0.3 subtracted when the custom validator runs
without throwing and reports invalid; a throwing custom validator,
although it records a failed check, subtracts nothing. -/
def vrScore (body : Option Json) (statusCode : Int) (config : ValidationConfig) : ℚ :=
  match config.customValidator with
  | none => vrScore5 body statusCode config
  | some customValidator =>
    match customValidator body statusCode with
    | .ok customResult =>
      if customResult.valid then vrScore5 body statusCode config
      else vrScore5 body statusCode config - 0.3
    | .error _ => vrScore5 body statusCode config

/-- `validateResponse` (part_001 lines 209-329): the accumulated
checks and score of `vrChecksScore`, with the score clamped to
`[0, 1]`, `valid` derived as the conjunction of the score threshold,
the success status and non-emptiness, and `reason` the joined messages
of the failed checks when invalid. -/
def validateResponse (body : Option Json) (statusCode : Int)
    (config : ValidationConfig) : ValidationResult :=
  let isSuccessStatus : Bool := decide (200 ≤ statusCode) && decide (statusCode < 300)
  let isEmpty := isEmptyResponse body (config.minResponseSize.getD 2)
  let checks := vrChecks body statusCode config
  let meaningfulnessScore := max 0 (min 1 (vrScore body statusCode config))
  let valid := decide (meaningfulnessScore ≥ 0.5) && isSuccessStatus && !isEmpty
  let reason : Option String :=
    if valid then none
    else some (String.intercalate "; "
      ((checks.filter (fun c => !c.passed)).map (·.message)))
  ⟨valid, checks, meaningfulnessScore, reason⟩

/-! ### RefundExecutor (part_004)

`processSingleRefund` is modelled as a state-transition function.
The executor state carries the local spend counters with their
calendar reset markers and the session-scoped set of processed refund
ids.  The wall clock (`new Date().toISOString()` prefixes) is passed in
per call, and the on-chain execution (`executeRefundTx`) is an
external effect whose result is passed in per call.  URL-pattern
matching (`getEndpointConfig`'s wildcard regexp) is abstracted as a
`String → String → Bool` parameter. -/

/-- Per-endpoint override config (`EndpointRefundConfig`): the fields
`processSingleRefund` consults. -/
structure EndpointRefundConfig where
  enabled : Option Bool
  maxRefundUsd : Option ℚ

/-- The fields of `ResolvedRefundConfig` that the cap logic consults.
`dailyCapUsd`/`monthlyCapUsd` are optional (`undefined` when not
configured). -/
structure ResolvedRefundConfig where
  enabled : Bool
  maxRefundUsd : ℚ
  dailyCapUsd : Option ℚ
  monthlyCapUsd : Option ℚ
  endpoints : List (String × EndpointRefundConfig)

/-- The fields of a `PendingRefund` that `processSingleRefund`
consults for its decision. -/
structure PendingRefund where
  id : String
  url : String
  amountCents : ℚ
  amountUsd : ℚ
deriving DecidableEq

/-- Executor-local mutable state: spend counters with reset markers,
and the session-scoped processed-id set. -/
structure ExecState where
  todayRefundedCents : ℚ
  monthRefundedCents : ℚ
  lastCapResetDate : String
  lastCapResetMonth : String
  processedRefundIds : List String
deriving DecidableEq

/-- Fresh executor state: zero counters, markers from the current
date, empty processed set (the constructor-time field initializers of
`RefundExecutor`). -/
def initialExecState (date month : String) : ExecState :=
  ⟨0, 0, date, month, []⟩

/-- The wall-clock date strings read inside `processSingleRefund`
(`toISOString().split` / `.slice` prefixes). -/
structure ClockDate where
  today : String
  thisMonth : String
deriving DecidableEq

/-- Result of the external `executeRefundTx` effect. -/
inductive ExecResult where
  | success
  | failure (retryable : Bool)
deriving DecidableEq

/-- Outcome of one `processSingleRefund` call, identifying which exit
the control flow took. -/
inductive RefundOutcome where
  | skippedAlreadyProcessed
  | rejectedDisabled
  | rejectedOverMax
  | rejectedDailyCap
  | rejectedMonthlyCap
  | executed
  | execFailed (retryable : Bool)
deriving DecidableEq

/-- `getEndpointConfig`: first endpoint pattern matching the URL wins;
the wildcard-regexp test is the abstracted `matchFn`. -/
def getEndpointConfig (matchFn : String → String → Bool)
    (endpoints : List (String × EndpointRefundConfig)) (url : String) :
    Option EndpointRefundConfig :=
  (endpoints.find? (fun p => matchFn p.1 url)).map (·.2)

/-- Truthiness of `this.config.dailyCapUsd` (or monthly): `undefined`
and `0` are falsy. -/
def capTruthy : Option ℚ → Bool
  | none => false
  | some q => decide (q ≠ 0)

/-- The daily-cap test of `processSingleRefund` (part_004 lines
507-519): guarded by the truthiness of `dailyCapUsd`, it compares
`todayRefundedCents + refund.amountCents` against
`Math.floor(dailyCapUsd * 100)`. -/
def dailyCapExceeded (cfg : ResolvedRefundConfig) (st : ExecState)
    (amountCents : ℚ) : Bool :=
  match cfg.dailyCapUsd with
  | none => false
  | some d =>
    decide (d ≠ 0) && decide ((⌊d * 100⌋ : ℚ) < st.todayRefundedCents + amountCents)

/-- The monthly-cap test of `processSingleRefund` (part_004 lines
522-534). -/
def monthlyCapExceeded (cfg : ResolvedRefundConfig) (st : ExecState)
    (amountCents : ℚ) : Bool :=
  match cfg.monthlyCapUsd with
  | none => false
  | some m =>
    decide (m ≠ 0) && decide ((⌊m * 100⌋ : ℚ) < st.monthRefundedCents + amountCents)

/-- The calendar-reset step of `processSingleRefund` (part_004 lines
495-504): counters reset to zero exactly when the current date or
month string differs from the stored marker. -/
def resetCaps (now : ClockDate) (st : ExecState) : ExecState :=
  let st :=
    if now.today ≠ st.lastCapResetDate then
      { st with todayRefundedCents := 0, lastCapResetDate := now.today }
    else st
  if now.thisMonth ≠ st.lastCapResetMonth then
    { st with monthRefundedCents := 0, lastCapResetMonth := now.thisMonth }
  else st

/-- `processSingleRefund` (part_004 lines 458-620) as a state
transition: session idempotency check, endpoint enablement, per-request
maximum, calendar reset, daily cap, monthly cap, then execution; on
success the id is recorded and both counters incremented. -/
def processSingleRefund (matchFn : String → String → Bool)
    (cfg : ResolvedRefundConfig) (now : ClockDate) (execRes : ExecResult)
    (st : ExecState) (refund : PendingRefund) : ExecState × RefundOutcome :=
  if refund.id ∈ st.processedRefundIds then
    (st, .skippedAlreadyProcessed)
  else
    let endpointConfig := getEndpointConfig matchFn cfg.endpoints refund.url
    if endpointConfig.bind (·.enabled) = some false then
      (st, .rejectedDisabled)
    else
      let maxUsd := (endpointConfig.bind (·.maxRefundUsd)).getD cfg.maxRefundUsd
      if maxUsd < refund.amountUsd then
        (st, .rejectedOverMax)
      else
        let st := resetCaps now st
        if dailyCapExceeded cfg st refund.amountCents then
          (st, .rejectedDailyCap)
        else if monthlyCapExceeded cfg st refund.amountCents then
          (st, .rejectedMonthlyCap)
        else
          match execRes with
          | .success =>
            ({ st with
                processedRefundIds := refund.id :: st.processedRefundIds,
                todayRefundedCents := st.todayRefundedCents + refund.amountCents,
                monthRefundedCents := st.monthRefundedCents + refund.amountCents },
             .executed)
          | .failure r => (st, .execFailed r)

/-- Sequential processing of the `refund_required` messages of one
session, each paired with the wall clock at delivery time and the
result its execution attempt would produce. -/
def runSession (matchFn : String → String → Bool) (cfg : ResolvedRefundConfig) :
    ExecState → List (ClockDate × ExecResult × PendingRefund) →
    ExecState × List RefundOutcome
  | st, [] => (st, [])
  | st, (now, er, r) :: rest =>
    let step := processSingleRefund matchFn cfg now er st r
    let tail := runSession matchFn cfg step.1 rest
    (tail.1, step.2 :: tail.2)

/-- Number of deliveries of refunds with the given id whose outcome
was a successful on-chain execution. -/
def executedFor (id : String) :
    List (ClockDate × ExecResult × PendingRefund) → List RefundOutcome → Nat
  | (_, _, r) :: ms, out :: outs =>
    (if r.id = id ∧ out = .executed then 1 else 0) + executedFor id ms outs
  | _, _ => 0

/-! ### Reconnect scheduling (`scheduleReconnect`, part_004 638-660) -/

/-- `baseReconnectDelay` field of `RefundExecutor`. -/
def baseReconnectDelay : Nat := 1000

/-- `persistentRetryDelay` field of `RefundExecutor`. -/
def persistentRetryDelay : Nat := 60000

/-- `fastPhaseAttempts` field of `RefundExecutor`. -/
def fastPhaseAttempts : Nat := 5

/-- `scheduleReconnect` as a function of the attempt counter at call
time: the delay passed to `setTimeout`, paired with whether the
phase-transition notice is logged on this call. -/
def scheduleReconnect (reconnectAttempts : Nat) : Nat × Bool :=
  if reconnectAttempts < fastPhaseAttempts then
    (baseReconnectDelay * 2 ^ reconnectAttempts, false)
  else
    (persistentRetryDelay, decide (reconnectAttempts = fastPhaseAttempts))

/-! ### Lemmas about the refund executor state machine -/

theorem resetCaps_processed (now : ClockDate) (st : ExecState) :
    (resetCaps now st).processedRefundIds = st.processedRefundIds := by
  simp only [resetCaps]
  split_ifs <;> rfl

theorem processed_mono (matchFn : String → String → Bool) (cfg : ResolvedRefundConfig)
    (now : ClockDate) (er : ExecResult) (st : ExecState) (r : PendingRefund)
    (id : String) (h : id ∈ st.processedRefundIds) :
    id ∈ (processSingleRefund matchFn cfg now er st r).1.processedRefundIds := by
  cases er <;>
    simp only [processSingleRefund] <;>
    split_ifs <;>
    simp_all [resetCaps_processed]

theorem skip_of_mem (matchFn : String → String → Bool) (cfg : ResolvedRefundConfig)
    (now : ClockDate) (er : ExecResult) (st : ExecState) (r : PendingRefund)
    (h : r.id ∈ st.processedRefundIds) :
    processSingleRefund matchFn cfg now er st r = (st, .skippedAlreadyProcessed) := by
  simp [processSingleRefund, h]

theorem executed_mem (matchFn : String → String → Bool) (cfg : ResolvedRefundConfig)
    (now : ClockDate) (er : ExecResult) (st : ExecState) (r : PendingRefund)
    (h : (processSingleRefund matchFn cfg now er st r).2 = .executed) :
    r.id ∈ (processSingleRefund matchFn cfg now er st r).1.processedRefundIds := by
  cases er <;>
    (simp only [processSingleRefund] at h ⊢
     split_ifs at h ⊢ <;> simp_all)

theorem executedFor_zero_of_mem (matchFn : String → String → Bool) (cfg : ResolvedRefundConfig)
    (id : String) (msgs : List (ClockDate × ExecResult × PendingRefund)) (st : ExecState)
    (h : id ∈ st.processedRefundIds) :
    executedFor id msgs (runSession matchFn cfg st msgs).2 = 0 := by
  induction msgs generalizing st with
  | nil => rfl
  | cons m rest ih =>
    obtain ⟨now, er, r⟩ := m
    simp only [runSession, executedFor]
    by_cases hid : r.id = id
    · subst hid
      rw [skip_of_mem matchFn cfg now er st r h]
      simp only []
      rw [ih st h]
      simp
    · rw [ih _ (processed_mono matchFn cfg now er st r id h)]
      simp [hid]

theorem executedFor_le_one (matchFn : String → String → Bool) (cfg : ResolvedRefundConfig)
    (id : String) (msgs : List (ClockDate × ExecResult × PendingRefund)) (st : ExecState) :
    executedFor id msgs (runSession matchFn cfg st msgs).2 ≤ 1 := by
  induction msgs generalizing st with
  | nil => simp [executedFor, runSession]
  | cons m rest ih =>
    obtain ⟨now, er, r⟩ := m
    simp only [runSession, executedFor]
    by_cases hexec : r.id = id ∧ (processSingleRefund matchFn cfg now er st r).2 = .executed
    · rw [if_pos hexec]
      have hmem : id ∈ (processSingleRefund matchFn cfg now er st r).1.processedRefundIds := by
        rw [← hexec.1]
        exact executed_mem matchFn cfg now er st r hexec.2
      rw [executedFor_zero_of_mem matchFn cfg id rest _ hmem]
    · rw [if_neg hexec]
      simpa using ih (processSingleRefund matchFn cfg now er st r).1

theorem daily_step_invariant (matchFn : String → String → Bool) (cfg : ResolvedRefundConfig)
    (now : ClockDate) (er : ExecResult) (st : ExecState) (r : PendingRefund)
    (d : ℚ) (hd : cfg.dailyCapUsd = some d) (hdpos : 0 < d)
    (h : st.todayRefundedCents ≤ (⌊d * 100⌋ : ℚ)) :
    (processSingleRefund matchFn cfg now er st r).1.todayRefundedCents ≤ (⌊d * 100⌋ : ℚ) := by
  have hcap : (0 : ℚ) ≤ (⌊d * 100⌋ : ℚ) := by
    have : (0 : ℤ) ≤ ⌊d * 100⌋ := by
      apply Int.floor_nonneg.mpr
      positivity
    exact_mod_cast this
  have hreset : (resetCaps now st).todayRefundedCents ≤ (⌊d * 100⌋ : ℚ) := by
    simp only [resetCaps]
    split_ifs <;> simp_all
  have hdne : d ≠ 0 := ne_of_gt hdpos
  cases er <;>
    simp only [processSingleRefund] <;>
    split_ifs with h1 h2 h3 h4 h5 <;>
    simp_all [dailyCapExceeded, hd, hdne]

theorem monthly_step_invariant (matchFn : String → String → Bool) (cfg : ResolvedRefundConfig)
    (now : ClockDate) (er : ExecResult) (st : ExecState) (r : PendingRefund)
    (m : ℚ) (hm : cfg.monthlyCapUsd = some m) (hmpos : 0 < m)
    (h : st.monthRefundedCents ≤ (⌊m * 100⌋ : ℚ)) :
    (processSingleRefund matchFn cfg now er st r).1.monthRefundedCents ≤ (⌊m * 100⌋ : ℚ) := by
  have hcap : (0 : ℚ) ≤ (⌊m * 100⌋ : ℚ) := by
    have : (0 : ℤ) ≤ ⌊m * 100⌋ := by
      apply Int.floor_nonneg.mpr
      positivity
    exact_mod_cast this
  have hreset : (resetCaps now st).monthRefundedCents ≤ (⌊m * 100⌋ : ℚ) := by
    simp only [resetCaps]
    split_ifs <;> simp_all
  have hmne : m ≠ 0 := ne_of_gt hmpos
  cases er <;>
    simp only [processSingleRefund] <;>
    split_ifs with h1 h2 h3 h4 h5 <;>
    simp_all [monthlyCapExceeded, hm, hmne]

theorem daily_run_invariant (matchFn : String → String → Bool) (cfg : ResolvedRefundConfig)
    (msgs : List (ClockDate × ExecResult × PendingRefund)) (st : ExecState)
    (d : ℚ) (hd : cfg.dailyCapUsd = some d) (hdpos : 0 < d)
    (h : st.todayRefundedCents ≤ (⌊d * 100⌋ : ℚ)) :
    (runSession matchFn cfg st msgs).1.todayRefundedCents ≤ (⌊d * 100⌋ : ℚ) := by
  induction msgs generalizing st with
  | nil => simpa [runSession] using h
  | cons msg rest ih =>
    obtain ⟨now, er, r⟩ := msg
    simp only [runSession]
    exact ih _ (daily_step_invariant matchFn cfg now er st r d hd hdpos h)

theorem monthly_run_invariant (matchFn : String → String → Bool) (cfg : ResolvedRefundConfig)
    (msgs : List (ClockDate × ExecResult × PendingRefund)) (st : ExecState)
    (m : ℚ) (hm : cfg.monthlyCapUsd = some m) (hmpos : 0 < m)
    (h : st.monthRefundedCents ≤ (⌊m * 100⌋ : ℚ)) :
    (runSession matchFn cfg st msgs).1.monthRefundedCents ≤ (⌊m * 100⌋ : ℚ) := by
  induction msgs generalizing st with
  | nil => simpa [runSession] using h
  | cons msg rest ih =>
    obtain ⟨now, er, r⟩ := msg
    simp only [runSession]
    exact ih _ (monthly_step_invariant matchFn cfg now er st r m hm hmpos h)

/-! ### Claims C2, C3, C7, C10: refund executor -/

/-- A URL-pattern matcher that matches nothing (concrete instance of
the abstracted wildcard matcher, for scenarios with no endpoint
overrides). -/
def noMatch : String → String → Bool := fun _ _ => false

/-- A URL-pattern matcher that matches everything. -/
def allMatch : String → String → Bool := fun _ _ => true

/-- The C3 scenario configuration: `dailyCapUsd = 50`, ample
per-request maximum, no endpoint overrides, no monthly cap. -/
def cfgC3 : ResolvedRefundConfig := ⟨true, 100, some 50, none, []⟩

/-- The C3 scenario state: `todayRefundedCents = 4950`, markers equal
to the current date so no reset occurs. -/
def stC3 : ExecState := ⟨4950, 0, "2026-10-12", "2026-10", []⟩

/-- The C3 scenario clock. -/
def nowC3 : ClockDate := ⟨"2026-10-12", "2026-10"⟩

theorem c3_scenario :
    (∀ er, processSingleRefund noMatch cfgC3 nowC3 er stC3 ⟨"r1", "u", 100, 1⟩
      = (stC3, .rejectedDailyCap)) ∧
    (processSingleRefund noMatch cfgC3 nowC3 .success stC3 ⟨"r2", "u", 50, 1/2⟩
      = (⟨5000, 50, "2026-10-12", "2026-10", ["r2"]⟩, .executed)) := by
  constructor
  · intro er
    cases er <;>
      (norm_num [processSingleRefund, cfgC3, stC3, nowC3, getEndpointConfig, noMatch,
        resetCaps, dailyCapExceeded, monthlyCapExceeded]
       intro h
       exact absurd h (by simp))
  · norm_num [processSingleRefund, cfgC3, stC3, nowC3, getEndpointConfig, noMatch,
      resetCaps, dailyCapExceeded, monthlyCapExceeded]
    simp

theorem c3_order (matchFn : String → String → Bool) (cfg : ResolvedRefundConfig)
    (now : ClockDate) (er : ExecResult) (st : ExecState) (r : PendingRefund)
    (hnp : r.id ∉ st.processedRefundIds) :
    (((getEndpointConfig matchFn cfg.endpoints r.url).bind (·.enabled) = some false) →
      processSingleRefund matchFn cfg now er st r = (st, .rejectedDisabled)) ∧
    (¬ ((getEndpointConfig matchFn cfg.endpoints r.url).bind (·.enabled) = some false) →
      ((getEndpointConfig matchFn cfg.endpoints r.url).bind (·.maxRefundUsd)).getD cfg.maxRefundUsd < r.amountUsd →
      processSingleRefund matchFn cfg now er st r = (st, .rejectedOverMax)) ∧
    (¬ ((getEndpointConfig matchFn cfg.endpoints r.url).bind (·.enabled) = some false) →
      ¬ (((getEndpointConfig matchFn cfg.endpoints r.url).bind (·.maxRefundUsd)).getD cfg.maxRefundUsd < r.amountUsd) →
      dailyCapExceeded cfg (resetCaps now st) r.amountCents = true →
      processSingleRefund matchFn cfg now er st r = (resetCaps now st, .rejectedDailyCap)) ∧
    (¬ ((getEndpointConfig matchFn cfg.endpoints r.url).bind (·.enabled) = some false) →
      ¬ (((getEndpointConfig matchFn cfg.endpoints r.url).bind (·.maxRefundUsd)).getD cfg.maxRefundUsd < r.amountUsd) →
      dailyCapExceeded cfg (resetCaps now st) r.amountCents = false →
      monthlyCapExceeded cfg (resetCaps now st) r.amountCents = true →
      processSingleRefund matchFn cfg now er st r = (resetCaps now st, .rejectedMonthlyCap)) := by
  refine ⟨?_, ?_, ?_, ?_⟩ <;>
    (intro h1
     try intro h2
     try intro h3
     try intro h4
     simp [processSingleRefund, hnp, h1]
     try simp [h2]
     try simp_all)

/-- Claim C3: with `dailyCapUsd = 50` and `todayRefundedCents = 4950`,
a refund of 100 cents is rejected with an `EXCEEDED_CAP` reason and
the counter is unchanged with no execution, while a refund of 50 cents
passes and, on successful execution, brings the counter to exactly
5000; the deny condition is
`todayRefundedCents + amountCents > Math.floor(dailyCapUsd * 100)`,
and the checks run in the order endpoint-disabled, per-request
maximum, daily cap, monthly cap. -/
theorem claim_C3_cap_scenario_and_order :
    ((∀ er, processSingleRefund noMatch cfgC3 nowC3 er stC3 ⟨"r1", "u", 100, 1⟩
        = (stC3, .rejectedDailyCap)) ∧
     (processSingleRefund noMatch cfgC3 nowC3 .success stC3 ⟨"r2", "u", 50, 1/2⟩
        = (⟨5000, 50, "2026-10-12", "2026-10", ["r2"]⟩, .executed))) ∧
    (∀ (cfg : ResolvedRefundConfig) (st : ExecState) (amt d : ℚ),
      cfg.dailyCapUsd = some d → d ≠ 0 →
      (dailyCapExceeded cfg st amt = true ↔
        (⌊d * 100⌋ : ℚ) < st.todayRefundedCents + amt)) ∧
    (∀ (matchFn : String → String → Bool) (cfg : ResolvedRefundConfig)
       (now : ClockDate) (er : ExecResult) (st : ExecState) (r : PendingRefund),
      r.id ∉ st.processedRefundIds →
      (((getEndpointConfig matchFn cfg.endpoints r.url).bind (·.enabled) = some false) →
        processSingleRefund matchFn cfg now er st r = (st, .rejectedDisabled)) ∧
      (¬ ((getEndpointConfig matchFn cfg.endpoints r.url).bind (·.enabled) = some false) →
        ((getEndpointConfig matchFn cfg.endpoints r.url).bind (·.maxRefundUsd)).getD cfg.maxRefundUsd < r.amountUsd →
        processSingleRefund matchFn cfg now er st r = (st, .rejectedOverMax)) ∧
      (¬ ((getEndpointConfig matchFn cfg.endpoints r.url).bind (·.enabled) = some false) →
        ¬ (((getEndpointConfig matchFn cfg.endpoints r.url).bind (·.maxRefundUsd)).getD cfg.maxRefundUsd < r.amountUsd) →
        dailyCapExceeded cfg (resetCaps now st) r.amountCents = true →
        processSingleRefund matchFn cfg now er st r = (resetCaps now st, .rejectedDailyCap)) ∧
      (¬ ((getEndpointConfig matchFn cfg.endpoints r.url).bind (·.enabled) = some false) →
        ¬ (((getEndpointConfig matchFn cfg.endpoints r.url).bind (·.maxRefundUsd)).getD cfg.maxRefundUsd < r.amountUsd) →
        dailyCapExceeded cfg (resetCaps now st) r.amountCents = false →
        monthlyCapExceeded cfg (resetCaps now st) r.amountCents = true →
        processSingleRefund matchFn cfg now er st r = (resetCaps now st, .rejectedMonthlyCap))) :=
  ⟨c3_scenario,
   fun cfg st amt d hd hdne => by simp [dailyCapExceeded, hd, hdne],
   fun matchFn cfg now er st r hnp => c3_order matchFn cfg now er st r hnp⟩

/-- Endpoint configuration disabling refunds (for the C3 witness). -/
def cfgDisabled : ResolvedRefundConfig := ⟨true, 100, none, none, [("u", ⟨some false, none⟩)]⟩

/-- Witness for C3: instantiates every hypothesis of the claim theorem
at concrete inputs. -/
theorem claim_C3_witness :
    processSingleRefund noMatch cfgC3 nowC3 .success stC3 ⟨"r1", "u", 100, 1⟩
      = (stC3, .rejectedDailyCap) ∧
    dailyCapExceeded cfgC3 stC3 100 = true ∧
    processSingleRefund allMatch cfgDisabled nowC3 .success stC3 ⟨"r3", "u", 1, 0⟩
      = (stC3, .rejectedDisabled) :=
  ⟨claim_C3_cap_scenario_and_order.1.1 .success,
   (claim_C3_cap_scenario_and_order.2.1 cfgC3 stC3 100 50 rfl (by norm_num)).mpr
     (by norm_num [stC3]),
   (claim_C3_cap_scenario_and_order.2.2 allMatch cfgDisabled nowC3 .success stC3
      ⟨"r3", "u", 1, 0⟩ (by simp [stC3])).1
     (by simp [getEndpointConfig, cfgDisabled, allMatch])⟩

/-- Claim C2: within one session, delivering two `refund_required`
messages with the same `PendingRefund.id` executes the on-chain
transfer at most once; the executor consults the session-scoped
processed-id set before executing and skips any id already in it. -/
theorem claim_C2_session_idempotency :
    ∀ (matchFn : String → String → Bool) (cfg : ResolvedRefundConfig)
      (st : ExecState) (msgs : List (ClockDate × ExecResult × PendingRefund)) (id : String),
      executedFor id msgs (runSession matchFn cfg st msgs).2 ≤ 1 ∧
      (∀ (now : ClockDate) (er : ExecResult) (r : PendingRefund),
        r.id ∈ st.processedRefundIds →
        processSingleRefund matchFn cfg now er st r = (st, .skippedAlreadyProcessed)) :=
  fun matchFn cfg st msgs id =>
    ⟨executedFor_le_one matchFn cfg id msgs st,
     fun now er r h => skip_of_mem matchFn cfg now er st r h⟩

/-- Witness for C2: a session that delivers the same refund id twice
with both executions succeeding runs the transfer once, and a refund
whose id is already in the processed set is skipped. -/
theorem claim_C2_witness :
    executedFor "dup"
      [(nowC3, .success, ⟨"dup", "u", 1, 0⟩), (nowC3, .success, ⟨"dup", "u", 1, 0⟩)]
      (runSession noMatch cfgC3 (initialExecState "2026-10-12" "2026-10")
        [(nowC3, .success, ⟨"dup", "u", 1, 0⟩), (nowC3, .success, ⟨"dup", "u", 1, 0⟩)]).2 ≤ 1 ∧
    processSingleRefund noMatch cfgC3 nowC3 .success ⟨0, 0, "2026-10-12", "2026-10", ["dup"]⟩
      ⟨"dup", "u", 1, 0⟩
      = (⟨0, 0, "2026-10-12", "2026-10", ["dup"]⟩, .skippedAlreadyProcessed) :=
  ⟨(claim_C2_session_idempotency noMatch cfgC3 (initialExecState "2026-10-12" "2026-10")
      [(nowC3, .success, ⟨"dup", "u", 1, 0⟩), (nowC3, .success, ⟨"dup", "u", 1, 0⟩)] "dup").1,
   (claim_C2_session_idempotency noMatch cfgC3 ⟨0, 0, "2026-10-12", "2026-10", ["dup"]⟩
      [] "dup").2 nowC3 .success ⟨"dup", "u", 1, 0⟩ (by simp)⟩

/-- Claim C7: the reconnect delay is `1000 * 2^n` ms for attempt
counters `n < 5` and exactly `60000` ms for `n ≥ 5`, and the
phase-transition notice is emitted exactly when `n = 5`. -/
theorem claim_C7_reconnect_schedule (n : Nat) :
    (n < 5 → (scheduleReconnect n).1 = 1000 * 2 ^ n) ∧
    (5 ≤ n → (scheduleReconnect n).1 = 60000) ∧
    ((scheduleReconnect n).2 = true ↔ n = 5) := by
  refine ⟨fun h => ?_, fun h => ?_, ?_⟩
  · simp [scheduleReconnect, fastPhaseAttempts, baseReconnectDelay, h]
  · have h5 : ¬ n < 5 := by omega
    simp [scheduleReconnect, fastPhaseAttempts, persistentRetryDelay, h5]
  · constructor
    · intro h
      by_cases h5 : n < 5
      · simp [scheduleReconnect, fastPhaseAttempts, h5] at h
      · simp [scheduleReconnect, fastPhaseAttempts, h5] at h
        exact h
    · intro h
      subst h
      simp [scheduleReconnect, fastPhaseAttempts]

/-- Witness for C7: the concrete schedule 1s, 16s, 60s, 60s, with the
notice fired only on attempt 5. -/
theorem claim_C7_witness :
    (scheduleReconnect 0).1 = 1000 * 2 ^ 0 ∧ (scheduleReconnect 4).1 = 1000 * 2 ^ 4 ∧
    (scheduleReconnect 5).1 = 60000 ∧ (scheduleReconnect 9).1 = 60000 ∧
    (scheduleReconnect 5).2 = true ∧ (scheduleReconnect 6).2 = false :=
  ⟨(claim_C7_reconnect_schedule 0).1 (by decide),
   (claim_C7_reconnect_schedule 4).1 (by decide),
   (claim_C7_reconnect_schedule 5).2.1 (by decide),
   (claim_C7_reconnect_schedule 9).2.1 (by decide),
   (claim_C7_reconnect_schedule 5).2.2.mpr rfl,
   by
    cases hb : (scheduleReconnect 6).2
    · rfl
    · exact absurd ((claim_C7_reconnect_schedule 6).2.2.mp hb) (by decide)⟩

/-- Claim C10 (amended): whenever `dailyCapUsd` (resp. `monthlyCapUsd`)
is configured to a positive value, the corresponding local counter
never exceeds `Math.floor(capUsd * 100)` after any sequence of
sequentially processed refund instructions starting from a fresh
executor. -/
theorem claim_C10_counters_bounded :
    ∀ (matchFn : String → String → Bool) (cfg : ResolvedRefundConfig)
      (msgs : List (ClockDate × ExecResult × PendingRefund)) (date month : String),
      (∀ d, cfg.dailyCapUsd = some d → 0 < d →
        (runSession matchFn cfg (initialExecState date month) msgs).1.todayRefundedCents
          ≤ (⌊d * 100⌋ : ℚ)) ∧
      (∀ m, cfg.monthlyCapUsd = some m → 0 < m →
        (runSession matchFn cfg (initialExecState date month) msgs).1.monthRefundedCents
          ≤ (⌊m * 100⌋ : ℚ)) := by
  intro matchFn cfg msgs date month
  constructor
  · intro d hd hdpos
    apply daily_run_invariant matchFn cfg msgs _ d hd hdpos
    simp only [initialExecState]
    have : (0 : ℤ) ≤ ⌊d * 100⌋ := Int.floor_nonneg.mpr (by positivity)
    exact_mod_cast this
  · intro m hm hmpos
    apply monthly_run_invariant matchFn cfg msgs _ m hm hmpos
    simp only [initialExecState]
    have : (0 : ℤ) ≤ ⌊m * 100⌋ := Int.floor_nonneg.mpr (by positivity)
    exact_mod_cast this

/-- The C10 counterexample configuration: `dailyCapUsd` is configured
but equal to `0`, which is falsy in JavaScript, so the daily-cap check
is skipped entirely. -/
def cfgCapZero : ResolvedRefundConfig := ⟨true, 1, some 0, none, []⟩

/-- Counterexample for C10 as stated: with `dailyCapUsd = 0` configured,
a successfully executed 50-cent refund drives `todayRefundedCents` to
50, strictly above `Math.floor(0 * 100) = 0`. -/
theorem claim_C10_counterexample :
    cfgCapZero.dailyCapUsd = some 0 ∧
    ¬ ((runSession noMatch cfgCapZero (initialExecState "2026-10-12" "2026-10")
        [(nowC3, .success, ⟨"r1", "u", 50, 1/2⟩)]).1.todayRefundedCents
       ≤ ((⌊(0 : ℚ) * 100⌋ : ℤ) : ℚ)) := by
  constructor
  · rfl
  · norm_num [runSession, processSingleRefund, cfgCapZero, initialExecState, nowC3,
      getEndpointConfig, noMatch, resetCaps, dailyCapExceeded, monthlyCapExceeded]
    simp

/-- Witness for C10: the amended bound instantiated with a concrete
session: cap 50 USD, two refunds of 4000 and 1500 cents, the second
denied, leaving the counter at 4000 ≤ 5000. -/
theorem claim_C10_witness :
    (runSession noMatch cfgC3 (initialExecState "2026-10-12" "2026-10")
      [(nowC3, .success, ⟨"a", "u", 4000, 1⟩), (nowC3, .success, ⟨"b", "u", 1500, 1⟩)]).1.todayRefundedCents
      ≤ (⌊(50 : ℚ) * 100⌋ : ℚ) :=
  (claim_C10_counters_bounded noMatch cfgC3
    [(nowC3, .success, ⟨"a", "u", 4000, 1⟩), (nowC3, .success, ⟨"b", "u", 1500, 1⟩)]
    "2026-10-12" "2026-10").1 50 rfl (by norm_num)

/-! ### Claim C1: Solana wire walk -/

/-- Claim C1: for every well-formed Solana payment transaction, the
decoder walks the instruction list in transaction order and, at the
first instruction whose program id resolves through the account table
to an SPL Token program, returns the base58 account at instruction
account-index 3 (when it lists at least 4 accounts) else index 2 (when
at least 3); with no qualifying instruction it returns account-table
entry 0 (the fee payer) rather than failing. -/
theorem claim_C1_solana_payer (tx : SolTransaction) (h : wfTx tx = true) :
    extractSolanaFeePayer (serializeTx tx) = solanaClaimPayer tx :=
  extractSolanaFeePayer_serializeTx tx h

/-- The 32 raw bytes of the SPL Token program id
`TokenkegQfeZyiNwAJbNbGKPFXCWuBvf9Ss623VQ5DA`. -/
def splTokenKeyBytes : List Nat :=
  [6, 221, 246, 225, 215, 101, 161, 147, 217, 203, 225, 70, 206, 235, 121, 172,
   28, 180, 133, 237, 95, 91, 55, 145, 58, 140, 245, 133, 126, 255, 0, 169]

/-- A concrete transaction with one signature, an unversioned message,
4 accounts and a single TransferChecked-shaped SPL Token instruction
whose authority (instruction account index 3) is table entry 2, not
the fee payer at table entry 0. -/
def txC1 : SolTransaction :=
  ⟨[List.replicate 64 0], none, (1, 0, 0),
   [List.replicate 32 7, List.replicate 32 8, List.replicate 32 9, splTokenKeyBytes],
   List.replicate 32 0,
   [⟨3, [0, 1, 2, 2], [5, 6]⟩]⟩

/-- Witness for C1: the walker on the serialized bytes of `txC1`
returns the transfer authority (table entry 2), which differs from the
fee payer. -/
theorem claim_C1_witness :
    wfTx txC1 = true ∧
    extractSolanaFeePayer (serializeTx txC1) = solanaClaimPayer txC1 ∧
    solanaClaimPayer txC1 = some (base58Encode (List.replicate 32 9)) ∧
    solanaClaimPayer txC1 ≠ (txC1.accountKeys.get? 0).map base58Encode :=
  ⟨by decide, claim_C1_solana_payer txC1 (by decide), by decide, by decide⟩

/-! ### Claim C4: base58 of the all-zero key -/

/-- Claim C6: `valid` is exactly the conjunction of the score
threshold (≥ 0.5), the 2xx status gate and the non-emptiness gate;
status and emptiness are hard conjuncts, not consequences of the
score. -/
theorem claim_C6_valid_rule (body : Option Json) (statusCode : Int)
    (config : ValidationConfig) :
    (validateResponse body statusCode config).valid
    = (decide ((validateResponse body statusCode config).meaningfulnessScore ≥ 0.5)
       && (decide (200 ≤ statusCode) && decide (statusCode < 300))
       && !isEmptyResponse body (config.minResponseSize.getD 2)) := rfl

/-- Penalty contributed by the required-fields check in the amended
score formula: 0.2 exactly when required fields are configured,
non-empty, and at least one is missing. -/
def requiredFieldsPenalty (body : Option Json) : Option (List String) → ℚ
  | none => 0
  | some requiredFields =>
    if 0 < requiredFields.length then
      if (missingRequiredFields body requiredFields).isEmpty then 0 else 0.2
    else 0

/-- Penalty contributed by the empty-collections check in the amended
score formula: 0.1 exactly when the check is enabled, the body is a
truthy object or array, and it (or a top-level value) is an empty
collection. -/
def emptyCollectionsPenalty (config : ValidationConfig) (body : Option Json) : ℚ :=
  if config.rejectEmptyCollections.getD false then
    match body with
    | some (.obj fields) => if checkEmptyCollections (.obj fields) then 0.1 else 0
    | some (.arr xs) => if checkEmptyCollections (.arr xs) then 0.1 else 0
    | _ => 0
  else 0

/-- Penalty contributed by the custom validator in the amended score
formula: 0.3 exactly when a custom validator is configured, returns
without throwing, and reports invalid; a throwing validator
contributes nothing (its failed check is recorded without penalty). -/
def customValidatorPenalty (config : ValidationConfig) (body : Option Json)
    (statusCode : Int) : ℚ :=
  match config.customValidator with
  | none => 0
  | some customValidator =>
    match customValidator body statusCode with
    | .ok r => if r.valid then 0 else 0.3
    | .error _ => 0

theorem vrScore1_eq (statusCode : Int) :
    vrScore1 statusCode = 1 - (if 200 ≤ statusCode ∧ statusCode < 300 then 0 else 0.3) := by
  simp only [vrScore1, Bool.and_eq_true, decide_eq_true_eq]
  split_ifs <;> ring

theorem vrScore2_eq (body : Option Json) (statusCode : Int) (config : ValidationConfig) :
    vrScore2 body statusCode config
    = vrScore1 statusCode
      - (if isEmptyResponse body (config.minResponseSize.getD 2) then 0.4 else 0) := by
  simp only [vrScore2]
  split_ifs <;> ring

theorem vrScore3_eq (body : Option Json) (statusCode : Int) (config : ValidationConfig) :
    vrScore3 body statusCode config
    = vrScore2 body statusCode config
      - (if hasErrorIndicators body (config.errorFields.getD ["error", "errors"]) then 0.3 else 0) := by
  simp only [vrScore3]
  split_ifs <;> ring

theorem vrScore4_eq (body : Option Json) (statusCode : Int) (config : ValidationConfig) :
    vrScore4 body statusCode config
    = vrScore3 body statusCode config - requiredFieldsPenalty body config.requiredFields := by
  simp only [vrScore4, requiredFieldsPenalty]
  cases config.requiredFields with
  | none => ring
  | some rfs =>
    dsimp only
    split_ifs <;> ring

theorem vrScore5_eq (body : Option Json) (statusCode : Int) (config : ValidationConfig) :
    vrScore5 body statusCode config
    = vrScore4 body statusCode config - emptyCollectionsPenalty config body := by
  simp only [vrScore5, emptyCollectionsPenalty]
  split_ifs with h
  · cases body with
    | none => ring
    | some j => cases j <;> dsimp only <;> first | (split_ifs <;> ring) | ring
  · ring

theorem vrScore_eq (body : Option Json) (statusCode : Int) (config : ValidationConfig) :
    vrScore body statusCode config
    = vrScore5 body statusCode config - customValidatorPenalty config body statusCode := by
  simp only [vrScore, customValidatorPenalty]
  cases config.customValidator with
  | none => ring
  | some f =>
    dsimp only
    cases f body statusCode with
    | ok r =>
      dsimp only
      split_ifs <;> ring
    | error msg => ring

theorem vr_score_formula (body : Option Json) (statusCode : Int)
    (config : ValidationConfig) :
    vrScore body statusCode config
    = 1 - (if 200 ≤ statusCode ∧ statusCode < 300 then 0 else 0.3)
        - (if isEmptyResponse body (config.minResponseSize.getD 2) then 0.4 else 0)
        - (if hasErrorIndicators body (config.errorFields.getD ["error", "errors"]) then 0.3 else 0)
        - requiredFieldsPenalty body config.requiredFields
        - emptyCollectionsPenalty config body
        - customValidatorPenalty config body statusCode := by
  rw [vrScore_eq, vrScore5_eq, vrScore4_eq, vrScore3_eq, vrScore2_eq, vrScore1_eq]

/-- Claim C5 (amended): the returned meaningfulness score is 1.0 minus
the fixed penalty of each failed check category, clamped to `[0, 1]` —
except that a `custom_validator` check recorded because the
user-supplied validator threw contributes no penalty, and failed
checks inside a custom validator's returned check list contribute
nothing beyond the single 0.3 taken when its result is invalid. -/
theorem claim_C5_score_formula (body : Option Json) (statusCode : Int)
    (config : ValidationConfig) :
    (validateResponse body statusCode config).meaningfulnessScore
    = max 0 (min 1
        (1 - (if 200 ≤ statusCode ∧ statusCode < 300 then 0 else 0.3)
           - (if isEmptyResponse body (config.minResponseSize.getD 2) then 0.4 else 0)
           - (if hasErrorIndicators body (config.errorFields.getD ["error", "errors"]) then 0.3 else 0)
           - requiredFieldsPenalty body config.requiredFields
           - emptyCollectionsPenalty config body
           - customValidatorPenalty config body statusCode)) := by
  show max 0 (min 1 (vrScore body statusCode config)) = _
  rw [vr_score_formula]

/-- The C5 counterexample configuration: only a custom validator that
always throws. -/
def cfgC5 : ValidationConfig := ⟨none, none, none, none, some (fun _ _ => .error "boom")⟩

/-- The C5 counterexample body: a non-empty, error-free object. -/
def bodyC5 : Option Json := some (.obj [("a", .str "b")])

/-- Counterexample for C5 as stated: a throwing custom validator
records a failed `custom_validator` check, yet the meaningfulness
score stays 1.0 instead of dropping by the category's 0.3 penalty. -/
theorem claim_C5_counterexample :
    ((validateResponse bodyC5 200 cfgC5).checks.any
      (fun c => c.name = "custom_validator" && !c.passed)) = true ∧
    (validateResponse bodyC5 200 cfgC5).meaningfulnessScore = 1 ∧
    (validateResponse bodyC5 200 cfgC5).meaningfulnessScore ≠ 1 - 0.3 := by
  have hempty : isEmptyResponse bodyC5 2 = false := by decide
  have herr : hasErrorIndicators bodyC5 ["error", "errors"] = false := by decide
  refine ⟨by decide, ?_, ?_⟩ <;>
    norm_num [validateResponse, vrScore, vrScore5, vrScore4, vrScore3, vrScore2, vrScore1,
      cfgC5, Option.getD_none, hempty, herr]

/-! ### Claims C8, C9: decoder safety and the two decoder variants -/

/-- The truncated transaction bytes of the C8 counterexample: a
6-byte buffer announcing one 32-byte account key, so the account slice
and the instruction-count read both fall outside the buffer. -/
def truncatedTxC8 : List Nat := [0, 0, 0, 0, 1, 99]

/-- Counterexample for C8 as stated: on these truncated bytes every
later read is out of range, yet the walk returns a best-effort payer
encoded from the single in-range byte instead of null. -/
theorem claim_C8_counterexample :
    extractSolanaFeePayer truncatedTxC8 = some "2i" ∧
    truncatedTxC8.length = 6 := by
  constructor <;> decide

/-- Claim C8 (amended): `decodePaymentHeader` always terminates with a
`{payer, amount, network}` record or null and never lets an exception
escape — any throw inside the Solana walk (modelled as the `error`
outcome of `solanaWalk`) is caught and becomes null — but a truncated
transaction may also produce a non-null best-effort payer rather than
null. -/
theorem claim_C8_total_no_throw :
    (∀ (parse : String → Option Json) (decode : String → List Nat)
       (header : Option String),
       decodePaymentHeaderP2 parse decode header = none ∨
       ∃ r, decodePaymentHeaderP2 parse decode header = some r) ∧
    (∀ bs, solanaWalk bs = Except.error () → extractSolanaFeePayer bs = none) ∧
    (∀ bs, extractSolanaFeePayer bs = none ∨ ∃ p, extractSolanaFeePayer bs = some p) := by
  refine ⟨?_, ?_, ?_⟩
  · intro parse decode header
    cases header with
    | none => exact Or.inl rfl
    | some s =>
      cases hp : parse s with
      | none => exact Or.inl (by simp [decodePaymentHeaderP2, hp])
      | some j => exact Or.inr ⟨decodeFieldsP2 j decode, by simp [decodePaymentHeaderP2, hp]⟩
  · intro bs h
    simp [extractSolanaFeePayer, h]
  · intro bs
    cases h : extractSolanaFeePayer bs with
    | none => exact Or.inl rfl
    | some p => exact Or.inr ⟨p, rfl⟩

/-- Witness for C8: the amended statement instantiated at the
truncated bytes and at an unparseable header. -/
theorem claim_C8_witness :
    (decodePaymentHeaderP2 (fun _ => none) (fun _ => []) (some "not json") = none ∨
     ∃ r, decodePaymentHeaderP2 (fun _ => none) (fun _ => []) (some "not json") = some r) ∧
    (extractSolanaFeePayer truncatedTxC8 = none ∨
     ∃ p, extractSolanaFeePayer truncatedTxC8 = some p) :=
  ⟨claim_C8_total_no_throw.1 (fun _ => none) (fun _ => []) (some "not json"),
   claim_C8_total_no_throw.2.2 truncatedTxC8⟩

/-- The C9 counterexample header JSON: a payer found by both field
chains, plus an `accepted.amount` field only the unnamed-module
implementation consults. -/
def jsonC9 : Json := .obj [("payer", .str "X"), ("accepted", .obj [("amount", .str "42")])]

/-- Counterexample for C9 as stated: on this header the two
`decodePaymentHeader` implementations disagree (the unnamed module
reports amount "42" from `accepted.amount`; `src/src/utils.ts` reports
no amount). -/
theorem claim_C9_counterexample :
    decodePaymentHeaderP2 (fun _ => some jsonC9) (fun _ => []) (some "h")
      ≠ decodePaymentHeaderUtils (fun _ => some jsonC9) (fun _ => []) (some "h") := by
  intro h
  have h1 : (decodeFieldsP2 jsonC9 (fun _ => [])).amount = some (.str "42") := rfl
  have h2 : (decodeFieldsUtils jsonC9 (fun _ => [])).amount = none := rfl
  have h3 : decodeFieldsP2 jsonC9 (fun _ => []) = decodeFieldsUtils jsonC9 (fun _ => []) := by
    have := h
    simpa [decodePaymentHeaderP2, decodePaymentHeaderUtils] using this
  rw [h3, h2] at h1
  exact Option.noConfusion h1

theorem decodeFields_agree (j : Json) (decode : String → List Nat)
    (hacc : jsTruthy (jGetO (jGet j "accepted") "amount") = false)
    (htx : jsTruthy (jGetO (jGet j "payload") "transaction") = false) :
    decodeFieldsP2 j decode = decodeFieldsUtils j decode := by
  simp [decodeFieldsP2, decodeFieldsUtils, firstTruthy, hacc, htx]

/-- Claim C9 (amended): the two `decodePaymentHeader` implementations
return equal `{payer, amount, network}` records on every header whose
parsed JSON has no truthy `accepted.amount` field and no truthy
`payload.transaction` field; they diverge exactly on the
`accepted.amount` amount source and on the Solana transaction walk
(transfer authority versus fee payer). -/
theorem claim_C9_decoders_agree (parse : String → Option Json)
    (decode : String → List Nat) (header : Option String)
    (hgood : ∀ s j, parse s = some j →
      jsTruthy (jGetO (jGet j "accepted") "amount") = false ∧
      jsTruthy (jGetO (jGet j "payload") "transaction") = false) :
    decodePaymentHeaderP2 parse decode header
      = decodePaymentHeaderUtils parse decode header := by
  cases header with
  | none => rfl
  | some s =>
    cases hp : parse s with
    | none => simp [decodePaymentHeaderP2, decodePaymentHeaderUtils, hp]
    | some j =>
      have ⟨hacc, htx⟩ := hgood s j hp
      simp [decodePaymentHeaderP2, decodePaymentHeaderUtils, hp,
        decodeFields_agree j decode hacc htx]

/-- Witness for C9: both decoders agree on a concrete EVM-style
header. -/
theorem claim_C9_witness :
    decodePaymentHeaderP2 (fun _ => some (.obj [("payer", .str "X")])) (fun _ => []) (some "h")
      = decodePaymentHeaderUtils (fun _ => some (.obj [("payer", .str "X")])) (fun _ => []) (some "h") :=
  claim_C9_decoders_agree (fun _ => some (.obj [("payer", .str "X")])) (fun _ => []) (some "h")
    (fun s j hp => by
      cases hp
      exact ⟨rfl, rfl⟩)

end ZauthSDK
